import Mathlib

/-
Verification of the flag-catalog ingestion pipeline.

This file gives a shallow embedding of the three Django management commands
of the repository (prj/app/management/commands/populate_countries.py,
populate_wikidata.py, populate_extra.py) together with the parts of the
data model (prj/app/models.py) they touch, and proves properties of the
embedded functions.

Modelling conventions:
- The database is a pair of in-memory tables (Country rows, FlagCollection
  rows) plus a surrogate-id counter.  Auto timestamps (created_at,
  updated_at) are not modelled.  Country fields that no command under
  consideration both writes and reads (area, latitude, longitude,
  timezones, currencies, languages, borders, subregion, coat of arms,
  independence flags) are projected away; every modelled field is written
  exactly as the source writes it.
- Django's update_or_create / get_or_create are modelled with
  first-match-in-table-order lookup; the unique=True constraints of
  Country.cca2 and Country.cca3 (models.py lines 21-22) are modelled by
  making the write a no-op when it would duplicate a key, mirroring the
  IntegrityError that the commands catch and turn into a per-record skip.
- Python string operations (strip, lower, upper, slicing, substring test)
  are re-implemented over character lists so that every definition is
  executable by kernel reduction.
-/

/-- Lowercase a string character by character (Python str.lower for the
ASCII labels handled by the pipeline). -/
def lowerStr (s : String) : String :=
  String.mk (s.data.map Char.toLower)

/-- Uppercase a string character by character (Python str.upper). -/
def upperStr (s : String) : String :=
  String.mk (s.data.map Char.toUpper)

/-- Strip leading and trailing whitespace (Python str.strip). -/
def trimStr (s : String) : String :=
  String.mk (((s.data.dropWhile Char.isWhitespace).reverse.dropWhile Char.isWhitespace).reverse)

/-- First n characters of a string (Python s[:n]). -/
def takeStr (n : Nat) (s : String) : String :=
  String.mk (s.data.take n)

/-- Does the character list start with the given pattern? -/
def listStarts : List Char → List Char → Bool
  | [], _ => true
  | _ :: _, [] => false
  | a :: as, b :: bs => a = b && listStarts as bs

/-- Does the character list contain the pattern as a contiguous run
(Python `p in s`)? -/
def listHas (p : List Char) : List Char → Bool
  | [] => listStarts p []
  | c :: rest => listStarts p (c :: rest) || listHas p rest

/-- Substring test on strings (Python `p in s`). -/
def containsStr (s p : String) : Bool :=
  listHas p.data s.data

/-- Case-insensitive substring test (Django `name__icontains`). -/
def containsIC (s p : String) : Bool :=
  containsStr (lowerStr s) (lowerStr p)

/-- Suffix test on strings (Python str.endswith). -/
def endsStr (s p : String) : Bool :=
  listStarts p.data.reverse s.data.reverse

/-- Python `s[1:].isdigit()`-style test: non-empty and all digits. -/
def allDigits (s : String) : Bool :=
  !s.data.isEmpty && s.data.all Char.isDigit

/-- Unresolved-label test of the commands:
`name.startswith("Q") and name[1:].isdigit()`. -/
def qidLabel (name : String) : Bool :=
  listStarts ['Q'] name.data && allDigits (String.mk (name.data.drop 1))

/-- The `qid` helper of both Wikidata commands:
`uri.rsplit("/", 1)[-1] if uri else ""`. -/
def qidOf (uri : String) : String :=
  if uri = "" then ""
  else String.mk ((uri.data.reverse.takeWhile (fun c => c ≠ '/')).reverse)

/-- The `commons_thumb` helper: thumbnail URL built from the last path
component of a Wikimedia Commons file URL. -/
def commonsThumb (svgUrl : String) (width : Nat) : String :=
  if svgUrl = "" then ""
  else
    "https://commons.wikimedia.org/wiki/Special:FilePath/"
      ++ String.mk ((svgUrl.data.reverse.takeWhile (fun c => c ≠ '/')).reverse)
      ++ "?width=" ++ toString width

/-- Image URL chosen by both `save_flag` implementations: an .svg flag URL
is turned into a Commons thumbnail, anything else is stored as-is. -/
def imageUrlOf (flagUrl : String) : String :=
  if endsStr (lowerStr flagUrl) ".svg" then commonsThumb flagUrl 320 else flagUrl

/-- The `iso2_to_emoji` helper of populate_wikidata. -/
def iso2ToEmoji (iso2 : String) : String :=
  if iso2.data.length ≠ 2 || !iso2.data.all Char.isAlpha then ""
  else String.mk ((upperStr iso2).data.map (fun c => Char.ofNat (0x1F1E6 + c.toNat - 65)))

/-- Modelled Country row: the fields of app.models.Country that the
ingestion commands write and read.  cca3 is the upsert key. -/
structure CountryRow where
  name_common : String
  name_official : String
  cca2 : String
  cca3 : String
  capital : String
  region : Option String
  population : Nat
  flag_svg : String
  flag_png : String
  flag_emoji : String
deriving DecidableEq

/-- Modelled FlagCollection row (app.models.FlagCollection).  `id` is the
surrogate primary key, `country` holds the cca3 of the linked Country. -/
structure FlagRow where
  id : Nat
  name : String
  category : String
  description : String
  flag_image : String
  wikidata_id : String
  country : Option String
deriving DecidableEq

/-- The persistent store: the two tables plus the surrogate-id counter. -/
structure DB where
  countries : List CountryRow
  flags : List FlagRow
  nextId : Nat
deriving DecidableEq

/-- The in-memory dedup-key set of the extras pipelines ("seen"). -/
abbrev Seen := List String

/-- Non-empty wikidata_ids persisted in a flag table
(`FlagCollection.objects.exclude(wikidata_id="")`). -/
def widsOf (flags : List FlagRow) : List String :=
  (flags.map (fun f => f.wikidata_id)).filter (fun w => w ≠ "")

/-- Seed of populate_extra's handle: set of persisted non-empty
wikidata_ids. -/
def extraSeed (db : DB) : Seen :=
  widsOf db.flags

/-- Replace the first flag row satisfying the predicate (Django fetches the
single row matching the lookup of update_or_create; first match in table
order models it). -/
def replaceFirstFlag (p : FlagRow → Bool) (u : FlagRow → FlagRow) :
    List FlagRow → List FlagRow
  | [] => []
  | f :: fs => if p f then u f :: fs else f :: replaceFirstFlag p u fs

/-- FlagCollection.objects.update_or_create(wikidata_id=wid, defaults=...)
as called by populate_extra.save_flag: defaults are name[:200], category
and flag_image.  Returns the new table together with the `created` flag. -/
def flagUpdateOrCreateE (db : DB) (wid name category image : String) : DB × Bool :=
  if db.flags.any (fun f => f.wikidata_id == wid) then
    let upd := replaceFirstFlag (fun f => f.wikidata_id == wid)
      (fun f => { f with name := takeStr 200 name, category := category,
                         flag_image := image }) db.flags
    ({ db with flags := upd }, false)
  else
    ({ db with
        flags := db.flags ++ [⟨db.nextId, takeStr 200 name, category, "", image, wid, none⟩],
        nextId := db.nextId + 1 }, true)

/-- FlagCollection.objects.get_or_create(name=name[:200], category=category,
defaults=...) as called by populate_extra.save_flag: when a row with the
(name, category) pair exists it is returned unchanged, otherwise a row is
created from the defaults. -/
def flagGetOrCreateE (db : DB) (name category image : String) : DB × Bool :=
  if db.flags.any (fun f => f.name == takeStr 200 name && f.category == category) then
    (db, false)
  else
    ({ db with
        flags := db.flags ++ [⟨db.nextId, takeStr 200 name, category, "", image, "", none⟩],
        nextId := db.nextId + 1 }, true)

/-- update_or_create(wikidata_id=wid, defaults=...) as called by
populate_wikidata._save_flag: defaults additionally carry description[:500]
and the country reference. -/
def flagUpdateOrCreateW (db : DB) (wid name category descr image : String)
    (ctry : Option String) : DB × Bool :=
  if db.flags.any (fun f => f.wikidata_id == wid) then
    let upd := replaceFirstFlag (fun f => f.wikidata_id == wid)
      (fun f => { f with name := takeStr 200 name, category := category,
                         description := takeStr 500 descr, flag_image := image,
                         country := ctry }) db.flags
    ({ db with flags := upd }, false)
  else
    ({ db with
        flags := db.flags ++
          [⟨db.nextId, takeStr 200 name, category, takeStr 500 descr, image, wid, ctry⟩],
        nextId := db.nextId + 1 }, true)

/-- get_or_create(name=name[:200], category=category, defaults=...) as
called by populate_wikidata._save_flag. -/
def flagGetOrCreateW (db : DB) (name category descr image : String)
    (ctry : Option String) : DB × Bool :=
  if db.flags.any (fun f => f.name == takeStr 200 name && f.category == category) then
    (db, false)
  else
    ({ db with
        flags := db.flags ++
          [⟨db.nextId, takeStr 200 name, category, takeStr 500 descr, image, "", ctry⟩],
        nextId := db.nextId + 1 }, true)

/-- The fields that both country-seeding commands pass as `defaults` of
Country.objects.update_or_create(cca3=..., defaults=...). -/
structure CountryDefaults where
  name_common : String
  name_official : String
  cca2 : String
  capital : String
  region : Option String
  population : Nat
  flag_svg : String
  flag_png : String
  flag_emoji : String
deriving DecidableEq

/-- Overwrite the non-key fields of a Country row with the defaults (the
UPDATE half of update_or_create; cca3, the lookup key, is untouched). -/
def applyDefaults (c : CountryRow) (d : CountryDefaults) : CountryRow :=
  { c with name_common := d.name_common, name_official := d.name_official,
           cca2 := d.cca2, capital := d.capital, region := d.region,
           population := d.population, flag_svg := d.flag_svg,
           flag_png := d.flag_png, flag_emoji := d.flag_emoji }

/-- Country row built from the key and the defaults (the CREATE half). -/
def countryFromDefaults (key : String) (d : CountryDefaults) : CountryRow :=
  ⟨d.name_common, d.name_official, d.cca2, key, d.capital, d.region,
   d.population, d.flag_svg, d.flag_png, d.flag_emoji⟩

/-- Replace the first country row satisfying the predicate. -/
def replaceFirstCountry (p : CountryRow → Bool) (u : CountryRow → CountryRow) :
    List CountryRow → List CountryRow
  | [] => []
  | c :: cs => if p c then u c :: cs else c :: replaceFirstCountry p u cs

/-- Drop the first country row satisfying the predicate (used to name the
"other rows" a unique constraint is checked against). -/
def removeFirstCountry (p : CountryRow → Bool) : List CountryRow → List CountryRow
  | [] => []
  | c :: cs => if p c then cs else c :: removeFirstCountry p cs

/-- Country.objects.update_or_create(cca3=key, defaults=d) under the
unique=True constraints on cca2 and cca3 (models.py): a write whose cca2
would duplicate another row's cca2 raises IntegrityError at the database,
which both callers catch and turn into a skip — modelled as leaving the
store unchanged.  Returns the table and the `created` flag. -/
def countryUpdateOrCreate (db : DB) (key : String) (d : CountryDefaults) : DB × Bool :=
  if db.countries.any (fun c => c.cca3 == key) then
    let others := removeFirstCountry (fun c => c.cca3 == key) db.countries
    if others.any (fun o => o.cca2 == d.cca2) then (db, false)
    else
      let upd := replaceFirstCountry (fun c => c.cca3 == key)
        (fun c => applyDefaults c d) db.countries
      ({ db with countries := upd }, false)
  else
    if db.countries.any (fun o => o.cca2 == d.cca2 || o.cca3 == key) then (db, false)
    else ({ db with countries := db.countries ++ [countryFromDefaults key d] }, true)

/-- One result row of a SPARQL query as consumed by the extras loops:
the ?item URI, its English label and the flag URL (absent fields are the
empty string, as in the `val` helper). -/
structure SparqlRow where
  item : String
  itemLabel : String
  flag : String
deriving DecidableEq

/-- populate_extra.Command.save_flag.  Mirrors the source line by line:
empty-field guard, QID-label guard, dedup-key check against `seen`,
seen-set insertion, case-insensitive collision check against
Country.name_common, image URL selection, then update_or_create keyed on
wikidata_id when present, else get_or_create keyed on (name, category). -/
def saveFlagExtra (db : DB) (seen : Seen) (name flagUrl category wid : String) :
    DB × Seen × Bool :=
  if name = "" ∨ flagUrl = "" then (db, seen, false)
  else if qidLabel name then (db, seen, false)
  else
    let dedupKey := if wid ≠ "" then wid else name
    if dedupKey ∈ seen then (db, seen, false)
    else
      let seen' := dedupKey :: seen
      if db.countries.any (fun c => lowerStr c.name_common == lowerStr name) then
        (db, seen', false)
      else
        let image := imageUrlOf flagUrl
        if wid ≠ "" then
          let (db', created) := flagUpdateOrCreateE db wid name category image
          (db', seen', created)
        else
          let (db', created) := flagGetOrCreateE db name category image
          (db', seen', created)

/-- One record of the flattened extras input: the category the enclosing
run_category call was made with, plus the raw SPARQL row. -/
structure ExtraRec where
  category : String
  item : String
  itemLabel : String
  flag : String
deriving DecidableEq

/-- Processing of one row inside populate_extra.run_category:
wid = qid(item), name = label.strip(), then save_flag. -/
def stepExtra (st : DB × Seen) (r : ExtraRec) : DB × Seen :=
  let res := saveFlagExtra st.1 st.2 (trimStr r.itemLabel) r.flag r.category (qidOf r.item)
  (res.1, res.2.1)

/-- Log of one category loop: warnings printed for failed query units and
the inter-unit pauses (seconds) slept after each unit. -/
structure RunLog where
  warnings : Nat
  pauses : List Nat
deriving DecidableEq

/-- One query unit of populate_extra.run_category: a unit whose query
failed after retries (`none`) is caught, logged as a warning and skipped;
a successful unit folds save_flag over its rows; `time.sleep(3)` runs
after every unit regardless of outcome. -/
def catUnitStep (category : String) (acc : (DB × Seen) × RunLog)
    (u : Option (List SparqlRow)) : (DB × Seen) × RunLog :=
  match u with
  | none => (acc.1, ⟨acc.2.warnings + 1, acc.2.pauses ++ [3]⟩)
  | some rows =>
      (rows.foldl (fun s r => stepExtra s ⟨category, r.item, r.itemLabel, r.flag⟩) acc.1,
       ⟨acc.2.warnings, acc.2.pauses ++ [3]⟩)

/-- populate_extra.Command.run_category: the loop over the category's
query units. -/
def runCategoryExtra (category : String) (units : List (Option (List SparqlRow)))
    (st : DB × Seen) : (DB × Seen) × RunLog :=
  units.foldl (catUnitStep category) (st, ⟨0, []⟩)

/-- The category loops of populate_extra.handle: each selected category is
run over its query list against the shared store and seen set. -/
def ingestExtra (cats : List (String × List (Option (List SparqlRow))))
    (st : DB × Seen) : DB × Seen :=
  cats.foldl (fun s c => (runCategoryExtra c.1 c.2 s).1) st

/-- The noise substrings of populate_extra._cleanup pass 2. -/
def noiseList : List String :=
  ["football team", "basketball team", "handball team",
   "volleyball team", "hockey team", "rugby team",
   "cricket team", "baseball team", "olympic", "paralympic",
   "under-17", "under-18", "under-19", "under-20", "under-21",
   "under-23", "women\x27s national", "men\x27s national",
   "national team", "at the 20", "at the 19", "grand prix",
   "marine corps", "coast guard", "national guard"]

/-- Cleanup pass 1: delete flag rows whose image equals some Country's
non-empty flag_png. -/
def cleanupPass1 (countries : List CountryRow) (flags : List FlagRow) : List FlagRow :=
  flags.filter (fun f =>
    !(countries.any (fun c => c.flag_png != "" && c.flag_png == f.flag_image)))

/-- Noise test of cleanup pass 2 (name__icontains over the noise list). -/
def isNoise (f : FlagRow) : Bool :=
  noiseList.any (fun p => containsIC f.name p)

/-- Cleanup pass 2: delete sports/noise rows. -/
def cleanupPass2 (flags : List FlagRow) : List FlagRow :=
  flags.filter (fun f => !isNoise f)

/-- Lexicographic order on character lists (the ORDER BY name collation
cleanup pass 3 fetches rows under). -/
def charLtList : List Char → List Char → Bool
  | [], [] => false
  | [], _ :: _ => true
  | _ :: _, [] => false
  | a :: as, b :: bs => if a = b then charLtList as bs else decide (a < b)

/-- Strict order in which cleanup pass 3 prefers rows: shorter name first
(`entries.sort(key=lambda e: len(e.name))`), ties resolved by the
(name, id) order the rows come back from the store in (Meta ordering is
by name; id breaks exact name ties deterministically). -/
def flagPrefOrder (f g : FlagRow) : Bool :=
  f.name.data.length < g.name.data.length ||
    (f.name.data.length == g.name.data.length &&
      (charLtList f.name.data g.name.data || (f.name == g.name && f.id < g.id)))

/-- The row kept for one image group in cleanup pass 3: the minimum of the
group under flagPrefOrder (the head of the stable length sort). -/
def chooseKept : List FlagRow → Option FlagRow
  | [] => none
  | f :: fs => some (fs.foldl (fun a g => if flagPrefOrder g a then g else a) f)

/-- Cleanup pass 3: group rows by identical flag_image and keep only the
preferred row of each group (groups of size one are their own preferred
row, so only duplicate groups lose rows). -/
def cleanupPass3 (flags : List FlagRow) : List FlagRow :=
  flags.filter (fun f =>
    chooseKept (flags.filter (fun g => g.flag_image == f.flag_image)) == some f)

/-- populate_extra.Command._cleanup: the three ordered passes. -/
def cleanupDB (db : DB) : DB :=
  { db with flags := cleanupPass3 (cleanupPass2 (cleanupPass1 db.countries db.flags)) }

/-- populate_extra.Command.handle: seed the seen set from the persisted
non-empty wikidata_ids, run the selected category loops, then cleanup. -/
def runExtra (cats : List (String × List (Option (List SparqlRow)))) (db : DB) : DB :=
  cleanupDB (ingestExtra cats (db, extraSeed db)).1

/-- populate_wikidata.Command._save_flag.  Note the order differences from
populate_extra.save_flag: the dedup check and seen insertion come before
the QID-label guard, and there is no collision check against Country
names; the country reference is looked up by upper-cased iso2 in the
country map built from the Country table. -/
def saveFlagWikidata (db : DB) (seen : Seen)
    (name flagUrl category wid iso2 descr : String) : DB × Seen × Bool :=
  if name = "" ∨ flagUrl = "" then (db, seen, false)
  else
    let dedupKey := if wid ≠ "" then wid else name
    if dedupKey ∈ seen then (db, seen, false)
    else
      let seen' := dedupKey :: seen
      if qidLabel name then (db, seen', false)
      else
        let ctry := if iso2 ≠ "" then
            (db.countries.find? (fun c => c.cca2 == upperStr iso2)).map (fun c => c.cca3)
          else none
        let image := imageUrlOf flagUrl
        if wid ≠ "" then
          let (db', created) := flagUpdateOrCreateW db wid name category descr image ctry
          (db', seen', created)
        else
          let (db', created) := flagGetOrCreateW db name category descr image ctry
          (db', seen', created)

/-- Keyword list of populate_wikidata._classify_name for the city bucket. -/
def cityWords : List String :=
  [" city", " town", " municipal", " commune", " borough", " metropol"]

/-- Keyword list for the state/province bucket. -/
def stateWords : List String :=
  ["province", "state of", "canton", "prefecture", "voivodeship", "oblast",
   "department", "governorate", "emirate", "county of", "autonomous community",
   "district"]

/-- Keyword list for the territory bucket. -/
def territoryWords : List String :=
  ["territory", "dependent", "overseas"]

/-- populate_wikidata.Command._classify_name: keyword membership over the
lower-cased label, evaluated city, then state, then territory, falling
back to region. -/
def classifyName (name : String) : String :=
  let nl := lowerStr name
  if cityWords.any (fun w => containsStr nl w) then "city"
  else if stateWords.any (fun w => containsStr nl w) then "state"
  else if territoryWords.any (fun w => containsStr nl w) then "territory"
  else "region"

/-- One row of a phase-2a batch query (carries the batch country code). -/
structure WikidataRow where
  item : String
  itemLabel : String
  flag : String
  countryISO : String
deriving DecidableEq

/-- Processing of one row inside phase 2a: skip rows whose exact label is a
known Country.name_common, classify the rest, then _save_flag. -/
def phase2aRowStep (countryNames : List String) (st : DB × Seen) (r : WikidataRow) :
    DB × Seen :=
  let name := trimStr r.itemLabel
  if name ∈ countryNames then st
  else
    let res := saveFlagWikidata st.1 st.2 name r.flag (classifyName name)
      (qidOf r.item) (trimStr r.countryISO) ""
    (res.1, res.2.1)

/-- One country batch of phase 2a: a batch whose query failed after
retries is caught, logged as a warning and skipped; `time.sleep(2)` runs
after every batch regardless of outcome. -/
def batchUnitStep (countryNames : List String) (acc : (DB × Seen) × RunLog)
    (u : Option (List WikidataRow)) : (DB × Seen) × RunLog :=
  match u with
  | none => (acc.1, ⟨acc.2.warnings + 1, acc.2.pauses ++ [2]⟩)
  | some rows =>
      (rows.foldl (phase2aRowStep countryNames) acc.1,
       ⟨acc.2.warnings, acc.2.pauses ++ [2]⟩)

/-- Phase 2a of populate_wikidata.phase2_extras: iterate the country
batches.  The country-name skip list is read from the Country table when
the phase starts. -/
def phase2aBatches (countryNames : List String)
    (batches : List (Option (List WikidataRow))) (st : DB × Seen) :
    (DB × Seen) × RunLog :=
  batches.foldl (batchUnitStep countryNames) (st, ⟨0, []⟩)

/-- Processing of one row of phase 2b (historical) or 2c (international):
_save_flag with the fixed category and no country code. -/
def phase2FixedStep (category : String) (st : DB × Seen) (r : SparqlRow) : DB × Seen :=
  let res := saveFlagWikidata st.1 st.2 (trimStr r.itemLabel) r.flag category
    (qidOf r.item) "" ""
  (res.1, res.2.1)

/-- Outcome of one HTTP attempt of run_sparql: a successful response with
result rows, an HTTP error with a status code, or a network failure. -/
inductive SparqlResp where
  | ok (rows : List SparqlRow)
  | http (status : Nat)
  | net
deriving DecidableEq

/-- Backoff slept on an HTTP 429: `15 * (attempt + 1)` seconds. -/
def rateLimitWait (attempt : Nat) : Nat := 15 * (attempt + 1)

/-- Backoff slept by populate_extra.run_sparql on an HTTP 504:
`5 * (attempt + 1)` seconds. -/
def gatewayWait (attempt : Nat) : Nat := 5 * (attempt + 1)

/-- Fixed 5-second pause slept before retrying a generic failure. -/
def genericWait : Nat := 5

/-- Result of a run_sparql call: the returned rows or the raised failure,
the sequence of backoff sleeps, and the number of HTTP attempts made. -/
structure SparqlOutcome where
  result : Except Unit (List SparqlRow)
  waits : List Nat
  tries : Nat

/-- The attempt loop of populate_extra.run_sparql, recursing on the number
of loop iterations left (`retries - attempt`).  A 429 or 504 always sleeps
and continues — also on the final attempt, after which the loop falls
through to `return []`; other HTTP errors and network errors sleep 5s and
retry while attempts remain, else re-raise. -/
def sparqlLoopExtra (resp : Nat → SparqlResp) (attempt : Nat) : Nat → SparqlOutcome
  | 0 => ⟨Except.ok [], [], 0⟩
  | fuel + 1 =>
    match resp attempt with
    | SparqlResp.ok rows => ⟨Except.ok rows, [], 1⟩
    | SparqlResp.http status =>
        if status = 429 then
          let rest := sparqlLoopExtra resp (attempt + 1) fuel
          ⟨rest.result, rateLimitWait attempt :: rest.waits, rest.tries + 1⟩
        else if status = 504 then
          let rest := sparqlLoopExtra resp (attempt + 1) fuel
          ⟨rest.result, gatewayWait attempt :: rest.waits, rest.tries + 1⟩
        else if fuel ≠ 0 then
          let rest := sparqlLoopExtra resp (attempt + 1) fuel
          ⟨rest.result, genericWait :: rest.waits, rest.tries + 1⟩
        else ⟨Except.error (), [], 1⟩
    | SparqlResp.net =>
        if fuel ≠ 0 then
          let rest := sparqlLoopExtra resp (attempt + 1) fuel
          ⟨rest.result, genericWait :: rest.waits, rest.tries + 1⟩
        else ⟨Except.error (), [], 1⟩

/-- populate_extra.run_sparql with its default retries=3. -/
def runSparqlExtra (resp : Nat → SparqlResp) : SparqlOutcome :=
  sparqlLoopExtra resp 0 3

/-- The attempt loop of populate_wikidata.run_sparql: identical except that
there is no dedicated 504 branch — a 504 falls into the generic HTTPError
branch (sleep 5, retry, raise when exhausted). -/
def sparqlLoopWikidata (resp : Nat → SparqlResp) (attempt : Nat) : Nat → SparqlOutcome
  | 0 => ⟨Except.ok [], [], 0⟩
  | fuel + 1 =>
    match resp attempt with
    | SparqlResp.ok rows => ⟨Except.ok rows, [], 1⟩
    | SparqlResp.http status =>
        if status = 429 then
          let rest := sparqlLoopWikidata resp (attempt + 1) fuel
          ⟨rest.result, rateLimitWait attempt :: rest.waits, rest.tries + 1⟩
        else if fuel ≠ 0 then
          let rest := sparqlLoopWikidata resp (attempt + 1) fuel
          ⟨rest.result, genericWait :: rest.waits, rest.tries + 1⟩
        else ⟨Except.error (), [], 1⟩
    | SparqlResp.net =>
        if fuel ≠ 0 then
          let rest := sparqlLoopWikidata resp (attempt + 1) fuel
          ⟨rest.result, genericWait :: rest.waits, rest.tries + 1⟩
        else ⟨Except.error (), [], 1⟩

/-- populate_wikidata.run_sparql with its default retries=3. -/
def runSparqlWikidata (resp : Nat → SparqlResp) : SparqlOutcome :=
  sparqlLoopWikidata resp 0 3

/-- The CONTINENT_QID_MAP constant of populate_wikidata. -/
def continentQidMap : List (String × String) :=
  [("Q15", "Africa"), ("Q48", "Asia"), ("Q46", "Europe"),
   ("Q49", "Americas"), ("Q828", "Americas"), ("Q18", "Americas"),
   ("Q27611", "Americas"), ("Q664609", "Americas"),
   ("Q538", "Oceania"), ("Q51", "Antarctic")]

/-- The CONTINENT_LABEL_MAP constant of populate_wikidata. -/
def continentLabelMap : List (String × String) :=
  [("africa", "Africa"), ("asia", "Asia"), ("europe", "Europe"),
   ("north america", "Americas"), ("south america", "Americas"),
   ("central america", "Americas"), ("caribbean", "Americas"),
   ("americas", "Americas"), ("oceania", "Oceania"),
   ("australia", "Oceania"), ("antarctica", "Antarctic")]

/-- The six region names created by both seeding commands before the
country loop (keys of REGION_DESCRIPTIONS); the regions dict maps each
name to its Region row, modelled by the name itself. -/
def regionNames : List String :=
  ["Africa", "Americas", "Antarctic", "Asia", "Europe", "Oceania"]

/-- One aggregated row of the phase-1 country query.  `population` is the
already-parsed `int(float(pop_raw))` with `none` for an absent or
malformed value (both of which the source turns into 0). -/
structure CountryQueryRow where
  isoA2 : String
  isoA3 : String
  nameEn : String
  population : Option Nat
  flagSvg : String
  capital : String
  continentQID : String
  continentLabel : String
deriving DecidableEq

/-- Per-row normalization of populate_wikidata.phase1_countries: the
guards (empty name or iso2, QID-shaped label), the `X`-prefixed synthesis
of a missing iso3, defensive numeric parsing, flag URL synthesis and
region resolution.  Returns the upsert key (cca3) and the defaults, or
`none` when the row is skipped. -/
def phase1Normalize (row : CountryQueryRow) : Option (String × CountryDefaults) :=
  let iso2 := upperStr (trimStr row.isoA2)
  let iso3raw := upperStr (trimStr row.isoA3)
  let name := trimStr row.nameEn
  if name = "" ∨ iso2 = "" then none
  else if qidLabel name then none
  else
    let iso3 := if iso3raw = "" then "X" ++ iso2 else iso3raw
    let population := match row.population with
      | some n => n
      | none => 0
    let flagPair :=
      if row.flagSvg ≠ "" ∧ endsStr (lowerStr row.flagSvg) ".svg" then
        (row.flagSvg, commonsThumb row.flagSvg 320)
      else
        ("https://flagcdn.com/" ++ lowerStr iso2 ++ ".svg",
         "https://flagcdn.com/w320/" ++ lowerStr iso2 ++ ".png")
    let capital := trimStr row.capital
    let contQid := qidOf row.continentQID
    let contLabel := lowerStr (trimStr row.continentLabel)
    let regionName :=
      match continentQidMap.lookup contQid with
      | some r => some r
      | none => continentLabelMap.lookup contLabel
    let region := regionName.bind (fun r => if r ∈ regionNames then some r else none)
    some (iso3, ⟨name, name, iso2, capital, region, population,
                 flagPair.1, flagPair.2, iso2ToEmoji iso2⟩)

/-- One loop iteration of phase1_countries: normalize the row, then
update_or_create keyed on cca3 (exceptions from the store are caught and
counted as skips, leaving the store unchanged). -/
def phase1Step (db : DB) (row : CountryQueryRow) : DB :=
  match phase1Normalize row with
  | none => db
  | some kd => (countryUpdateOrCreate db kd.1 kd.2).1

/-- The phase-1 country loop over the rows of the aggregated query. -/
def phase1Run (db : DB) (rows : List CountryQueryRow) : DB :=
  rows.foldl phase1Step db

/-- One entry of the bulk countries.json dataset as read by
populate_countries.handle, after the dictionary lookups with their
defaults (name.common defaults to "Unknown", official to common, etc.). -/
structure DatasetEntry where
  name_common : String
  name_official : String
  cca2 : String
  cca3 : String
  capital : List String
  region : String
  flag : String
deriving DecidableEq

/-- One loop iteration of populate_countries.handle: skip entries missing
either code, take the first capital, resolve the region against the fixed
region dict, synthesize flagcdn URLs from the lower-cased cca2, then
update_or_create keyed on cca3 (population is hard-coded to 0; errors are
caught per entry and skipped). -/
def popCountriesStep (db : DB) (e : DatasetEntry) : DB :=
  if e.cca2 = "" ∨ e.cca3 = "" then db
  else
    let capital := e.capital.headD ""
    let region := if e.region ∈ regionNames then some e.region else none
    let cca2lower := lowerStr e.cca2
    let d : CountryDefaults :=
      ⟨e.name_common, e.name_official, e.cca2, capital, region, 0,
       "https://flagcdn.com/" ++ cca2lower ++ ".svg",
       "https://flagcdn.com/w320/" ++ cca2lower ++ ".png",
       e.flag⟩
    (countryUpdateOrCreate db e.cca3 d).1

/-- The country loop of populate_countries.handle. -/
def popCountriesRun (db : DB) (entries : List DatasetEntry) : DB :=
  entries.foldl popCountriesStep db

/-- Attach a run_category category to a raw SPARQL row. -/
def toExtraRec (category : String) (r : SparqlRow) : ExtraRec :=
  ⟨category, r.item, r.itemLabel, r.flag⟩

/-- The records a category loop feeds to save_flag, in order: the rows of
its successful query units, tagged with the category. -/
def catRecs (category : String) (units : List (Option (List SparqlRow))) :
    List ExtraRec :=
  ((units.filterMap id).map (fun rows => rows.map (toExtraRec category))).flatten

/-- All records an extras run feeds to save_flag, in order. -/
def flatRecs (cats : List (String × List (Option (List SparqlRow)))) :
    List ExtraRec :=
  (cats.map (fun c => catRecs c.1 c.2)).flatten

/-- Natural key of a FlagCollection row per the spec: the external
identifier when present, else the (name, category) pair. -/
def flagNatKey (f : FlagRow) : Sum String (String × String) :=
  if f.wikidata_id ≠ "" then Sum.inl f.wikidata_id else Sum.inr (f.name, f.category)

/-- No two flag rows carry the same natural key. -/
def FlagKeysDistinct (flags : List FlagRow) : Prop :=
  flags.Pairwise (fun f g => flagNatKey f ≠ flagNatKey g)

/-- Surrogate primary keys are distinct (always true of a real table). -/
def IdsDistinct (flags : List FlagRow) : Prop :=
  flags.Pairwise (fun f g => f.id ≠ g.id)

/-- Country-code invariant of the spec: both codes non-empty on every
persisted row, and each code unique across the table. -/
def CodesOk (db : DB) : Prop :=
  (∀ c ∈ db.countries, c.cca2 ≠ "" ∧ c.cca3 ≠ "") ∧
    db.countries.Pairwise (fun a b => a.cca2 ≠ b.cca2) ∧
    db.countries.Pairwise (fun a b => a.cca3 ≠ b.cca3)

/-- No-country-shadowing invariant of the spec: no flag row's name
case-insensitively equals any Country's common name. -/
def NoShadow (db : DB) : Prop :=
  ∀ f ∈ db.flags, ∀ c ∈ db.countries, lowerStr f.name ≠ lowerStr c.name_common

/-- The retry loop of populate_extra.run_sparql makes at most `fuel`
attempts. -/
theorem sparqlLoopExtra_tries_le (resp : Nat → SparqlResp) :
    ∀ (fuel attempt : Nat), (sparqlLoopExtra resp attempt fuel).tries ≤ fuel := by
  intro fuel
  induction fuel with
  | zero => intro attempt; simp [sparqlLoopExtra]
  | succ n ih =>
      intro attempt
      cases h : resp attempt with
      | ok rows => simp [sparqlLoopExtra, h]
      | http s =>
          simp only [sparqlLoopExtra, h]
          split_ifs <;> simp <;> exact ih (attempt + 1)
      | net =>
          simp only [sparqlLoopExtra, h]
          split_ifs <;> simp
          exact ih (attempt + 1)

/-- With fuel left, the extra retry loop makes at least one attempt. -/
theorem sparqlLoopExtra_tries_pos (resp : Nat → SparqlResp) (attempt fuel : Nat)
    (h : fuel ≠ 0) : 1 ≤ (sparqlLoopExtra resp attempt fuel).tries := by
  cases fuel with
  | zero => exact absurd rfl h
  | succ n =>
      cases hr : resp attempt with
      | ok rows => simp [sparqlLoopExtra, hr]
      | http s => simp only [sparqlLoopExtra, hr]; split_ifs <;> simp
      | net => simp only [sparqlLoopExtra, hr]; split_ifs <;> simp

/-- The retry loop of populate_wikidata.run_sparql makes at most `fuel`
attempts. -/
theorem sparqlLoopWikidata_tries_le (resp : Nat → SparqlResp) :
    ∀ (fuel attempt : Nat), (sparqlLoopWikidata resp attempt fuel).tries ≤ fuel := by
  intro fuel
  induction fuel with
  | zero => intro attempt; simp [sparqlLoopWikidata]
  | succ n ih =>
      intro attempt
      cases h : resp attempt with
      | ok rows => simp [sparqlLoopWikidata, h]
      | http s =>
          simp only [sparqlLoopWikidata, h]
          split_ifs <;> simp <;> exact ih (attempt + 1)
      | net =>
          simp only [sparqlLoopWikidata, h]
          split_ifs <;> simp
          exact ih (attempt + 1)

/-- With fuel left, the wikidata retry loop makes at least one attempt. -/
theorem sparqlLoopWikidata_tries_pos (resp : Nat → SparqlResp) (attempt fuel : Nat)
    (h : fuel ≠ 0) : 1 ≤ (sparqlLoopWikidata resp attempt fuel).tries := by
  cases fuel with
  | zero => exact absurd rfl h
  | succ n =>
      cases hr : resp attempt with
      | ok rows => simp [sparqlLoopWikidata, hr]
      | http s => simp only [sparqlLoopWikidata, hr]; split_ifs <;> simp
      | net => simp only [sparqlLoopWikidata, hr]; split_ifs <;> simp

/-- A 429 response makes the extra loop sleep and take another attempt. -/
theorem loopExtra_tries_429 (resp : Nat → SparqlResp) (a n : Nat)
    (h : resp a = SparqlResp.http 429) :
    (sparqlLoopExtra resp a (n + 1)).tries = (sparqlLoopExtra resp (a + 1) n).tries + 1 := by
  simp [sparqlLoopExtra, h]

/-- A 504 response makes the extra loop sleep and take another attempt. -/
theorem loopExtra_tries_504 (resp : Nat → SparqlResp) (a n : Nat)
    (h : resp a = SparqlResp.http 504) :
    (sparqlLoopExtra resp a (n + 1)).tries = (sparqlLoopExtra resp (a + 1) n).tries + 1 := by
  simp [sparqlLoopExtra, h]

/-- A network failure with attempts remaining makes the extra loop retry. -/
theorem loopExtra_tries_net (resp : Nat → SparqlResp) (a n : Nat) (hn : n ≠ 0)
    (h : resp a = SparqlResp.net) :
    (sparqlLoopExtra resp a (n + 1)).tries = (sparqlLoopExtra resp (a + 1) n).tries + 1 := by
  simp [sparqlLoopExtra, h, hn]

/-- A 429 response makes the wikidata loop sleep and retry. -/
theorem loopWikidata_tries_429 (resp : Nat → SparqlResp) (a n : Nat)
    (h : resp a = SparqlResp.http 429) :
    (sparqlLoopWikidata resp a (n + 1)).tries
      = (sparqlLoopWikidata resp (a + 1) n).tries + 1 := by
  simp [sparqlLoopWikidata, h]

/-- Any non-429 HTTP failure with attempts remaining makes the wikidata
loop retry through the generic branch. -/
theorem loopWikidata_tries_http (resp : Nat → SparqlResp) (a n s : Nat) (hn : n ≠ 0)
    (h : resp a = SparqlResp.http s) :
    (sparqlLoopWikidata resp a (n + 1)).tries
      = (sparqlLoopWikidata resp (a + 1) n).tries + 1 := by
  by_cases h429 : s = 429
  · subst h429; exact loopWikidata_tries_429 resp a n h
  · simp [sparqlLoopWikidata, h, hn, h429]

/-- A network failure with attempts remaining makes the wikidata loop
retry. -/
theorem loopWikidata_tries_net (resp : Nat → SparqlResp) (a n : Nat) (hn : n ≠ 0)
    (h : resp a = SparqlResp.net) :
    (sparqlLoopWikidata resp a (n + 1)).tries
      = (sparqlLoopWikidata resp (a + 1) n).tries + 1 := by
  simp [sparqlLoopWikidata, h, hn]

/-- C6 (amended): every run_sparql call makes at most 3 attempts; each
transient failure class (HTTP 429, HTTP 504, network error) triggers a
retry; for every attempt index the rate-limit wait strictly exceeds both
the gateway-timeout wait and the generic wait; a run whose every attempt
fails with a generic network error raises the failure to the caller, but
a run whose every attempt is rate-limited (or, in populate_extra, times
out at the gateway) falls off the loop and returns an empty row list
instead of raising; populate_wikidata routes 504 through the generic
branch and does raise it after the last attempt. -/
theorem run_sparql_retry_policy :
    (∀ resp, (runSparqlExtra resp).tries ≤ 3) ∧
    (∀ resp, (runSparqlWikidata resp).tries ≤ 3) ∧
    (∀ a, gatewayWait a < rateLimitWait a ∧ genericWait < rateLimitWait a) ∧
    (∀ resp, (resp 0 = SparqlResp.http 429 ∨ resp 0 = SparqlResp.http 504 ∨
        resp 0 = SparqlResp.net) → 2 ≤ (runSparqlExtra resp).tries) ∧
    (∀ resp, (resp 0 = SparqlResp.http 429 ∨ resp 0 = SparqlResp.http 504 ∨
        resp 0 = SparqlResp.net) → 2 ≤ (runSparqlWikidata resp).tries) ∧
    (∀ resp, (∀ i, resp i = SparqlResp.net) →
        (runSparqlExtra resp).result = Except.error () ∧
        (runSparqlWikidata resp).result = Except.error ()) ∧
    (runSparqlExtra (fun _ => SparqlResp.http 429)).result = Except.ok [] ∧
    (runSparqlExtra (fun _ => SparqlResp.http 429)).waits = [15, 30, 45] ∧
    (runSparqlExtra (fun _ => SparqlResp.http 504)).result = Except.ok [] ∧
    (runSparqlExtra (fun _ => SparqlResp.http 504)).waits = [5, 10, 15] ∧
    (runSparqlWikidata (fun _ => SparqlResp.http 429)).result = Except.ok [] ∧
    (runSparqlWikidata (fun _ => SparqlResp.http 504)).result = Except.error () ∧
    (runSparqlWikidata (fun _ => SparqlResp.http 504)).waits = [5, 5] := by
  refine ⟨fun resp => sparqlLoopExtra_tries_le resp 3 0,
          fun resp => sparqlLoopWikidata_tries_le resp 3 0,
          fun a => ⟨by unfold gatewayWait rateLimitWait; omega,
                    by unfold genericWait rateLimitWait; omega⟩,
          ?_, ?_, ?_, rfl, rfl, rfl, rfl, rfl, rfl, rfl⟩
  · intro resp h
    have hpos := sparqlLoopExtra_tries_pos resp 1 2 (by simp)
    show 2 ≤ (sparqlLoopExtra resp 0 3).tries
    rcases h with h | h | h
    · have e : (sparqlLoopExtra resp 0 3).tries = (sparqlLoopExtra resp 1 2).tries + 1 :=
        loopExtra_tries_429 resp 0 2 h
      omega
    · have e : (sparqlLoopExtra resp 0 3).tries = (sparqlLoopExtra resp 1 2).tries + 1 :=
        loopExtra_tries_504 resp 0 2 h
      omega
    · have e : (sparqlLoopExtra resp 0 3).tries = (sparqlLoopExtra resp 1 2).tries + 1 :=
        loopExtra_tries_net resp 0 2 (by simp) h
      omega
  · intro resp h
    have hpos := sparqlLoopWikidata_tries_pos resp 1 2 (by simp)
    show 2 ≤ (sparqlLoopWikidata resp 0 3).tries
    rcases h with h | h | h
    · have e : (sparqlLoopWikidata resp 0 3).tries
          = (sparqlLoopWikidata resp 1 2).tries + 1 :=
        loopWikidata_tries_429 resp 0 2 h
      omega
    · have e : (sparqlLoopWikidata resp 0 3).tries
          = (sparqlLoopWikidata resp 1 2).tries + 1 :=
        loopWikidata_tries_http resp 0 2 504 (by simp) h
      omega
    · have e : (sparqlLoopWikidata resp 0 3).tries
          = (sparqlLoopWikidata resp 1 2).tries + 1 :=
        loopWikidata_tries_net resp 0 2 (by simp) h
      omega
  · intro resp h
    constructor
    · show (sparqlLoopExtra resp 0 3).result = Except.error ()
      rw [show (3 : Nat) = 2 + 1 from rfl]
      simp only [sparqlLoopExtra, h 0, h 1, h 2]
      norm_num
    · show (sparqlLoopWikidata resp 0 3).result = Except.error ()
      rw [show (3 : Nat) = 2 + 1 from rfl]
      simp only [sparqlLoopWikidata, h 0, h 1, h 2]
      norm_num

/-- C6 counterexample: a call all of whose attempts are rate-limited does
not raise the failure to the caller — both run_sparql variants fall off
the retry loop and return an empty row list. -/
theorem run_sparql_exhausted_rate_limit_not_raised :
    (runSparqlExtra (fun _ => SparqlResp.http 429)).result = Except.ok [] ∧
    (runSparqlWikidata (fun _ => SparqlResp.http 429)).result = Except.ok [] ∧
    (runSparqlExtra (fun _ => SparqlResp.http 429)).result ≠ Except.error () := by
  refine ⟨rfl, rfl, ?_⟩
  intro h
  exact Except.noConfusion h

/-- Witness for run_sparql_retry_policy at a concrete response sequence. -/
theorem run_sparql_retry_policy_witness :
    2 ≤ (runSparqlExtra (fun _ => SparqlResp.net)).tries ∧
    (runSparqlExtra (fun _ => SparqlResp.net)).result = Except.error () ∧
    gatewayWait 0 < rateLimitWait 0 :=
  ⟨run_sparql_retry_policy.2.2.2.1 (fun _ => SparqlResp.net) (Or.inr (Or.inr rfl)),
   (run_sparql_retry_policy.2.2.2.2.2.1 (fun _ => SparqlResp.net) (fun _ => rfl)).1,
   (run_sparql_retry_policy.2.2.1 0).1⟩

theorem foldl_pair_fst {α β γ : Type} (F : (α × β) → γ → α × β) (G : α → γ → α)
    (hF : ∀ a b c, (F (a, b) c).1 = G a c) :
    ∀ (l : List γ) (a : α) (b : β), (l.foldl F (a, b)).1 = l.foldl G a := by
  intro l
  induction l with
  | nil => intro a b; rfl
  | cons c l' ih =>
      intro a b
      have : F (a, b) c = ((F (a, b) c).1, (F (a, b) c).2) := rfl
      calc (l'.foldl F (F (a, b) c)).1
          = (l'.foldl F ((F (a, b) c).1, (F (a, b) c).2)).1 := by rw [← this]
        _ = l'.foldl G (F (a, b) c).1 := ih _ _
        _ = l'.foldl G (G a c) := by rw [hF]

theorem catFold_log (cat : String) :
    ∀ (us : List (Option (List SparqlRow))) (s : DB × Seen) (lg : RunLog),
      (us.foldl (catUnitStep cat) (s, lg)).2.warnings
          = lg.warnings + us.countP (fun u => u.isNone) ∧
      (us.foldl (catUnitStep cat) (s, lg)).2.pauses
          = lg.pauses ++ List.replicate us.length 3 := by
  intro us
  induction us with
  | nil => intro s lg; simp
  | cons u us' ih =>
      intro s lg
      cases u with
      | none =>
          have h := ih s ⟨lg.warnings + 1, lg.pauses ++ [3]⟩
          constructor
          · rw [show (((none :: us').foldl (catUnitStep cat) (s, lg)))
                = us'.foldl (catUnitStep cat) (s, ⟨lg.warnings + 1, lg.pauses ++ [3]⟩) from rfl]
            rw [h.1]
            simp [List.countP_cons]
            omega
          · rw [show (((none :: us').foldl (catUnitStep cat) (s, lg)))
                = us'.foldl (catUnitStep cat) (s, ⟨lg.warnings + 1, lg.pauses ++ [3]⟩) from rfl]
            rw [h.2]
            simp [List.replicate_succ]
      | some rows =>
          have h := ih (rows.foldl
              (fun st r => stepExtra st ⟨cat, r.item, r.itemLabel, r.flag⟩) s)
            ⟨lg.warnings, lg.pauses ++ [3]⟩
          constructor
          · rw [show ((((some rows) :: us').foldl (catUnitStep cat) (s, lg)))
                = us'.foldl (catUnitStep cat)
                    ((rows.foldl (fun st r => stepExtra st ⟨cat, r.item, r.itemLabel, r.flag⟩) s),
                     ⟨lg.warnings, lg.pauses ++ [3]⟩) from rfl]
            rw [h.1]
            simp [List.countP_cons]
          · rw [show ((((some rows) :: us').foldl (catUnitStep cat) (s, lg)))
                = us'.foldl (catUnitStep cat)
                    ((rows.foldl (fun st r => stepExtra st ⟨cat, r.item, r.itemLabel, r.flag⟩) s),
                     ⟨lg.warnings, lg.pauses ++ [3]⟩) from rfl]
            rw [h.2]
            simp [List.replicate_succ]

theorem batchFold_log (ns : List String) :
    ∀ (us : List (Option (List WikidataRow))) (s : DB × Seen) (lg : RunLog),
      (us.foldl (batchUnitStep ns) (s, lg)).2.warnings
          = lg.warnings + us.countP (fun u => u.isNone) ∧
      (us.foldl (batchUnitStep ns) (s, lg)).2.pauses
          = lg.pauses ++ List.replicate us.length 2 := by
  intro us
  induction us with
  | nil => intro s lg; simp
  | cons u us' ih =>
      intro s lg
      cases u with
      | none =>
          have h := ih s ⟨lg.warnings + 1, lg.pauses ++ [2]⟩
          refine ⟨?_, ?_⟩ <;>
            rw [show (((none :: us').foldl (batchUnitStep ns) (s, lg)))
                = us'.foldl (batchUnitStep ns) (s, ⟨lg.warnings + 1, lg.pauses ++ [2]⟩) from rfl]
          · rw [h.1]; simp [List.countP_cons]; omega
          · rw [h.2]; simp [List.replicate_succ]
      | some rows =>
          have h := ih (rows.foldl (phase2aRowStep ns) s) ⟨lg.warnings, lg.pauses ++ [2]⟩
          refine ⟨?_, ?_⟩ <;>
            rw [show ((((some rows) :: us').foldl (batchUnitStep ns) (s, lg)))
                = us'.foldl (batchUnitStep ns)
                    ((rows.foldl (phase2aRowStep ns) s), ⟨lg.warnings, lg.pauses ++ [2]⟩) from rfl]
          · rw [h.1]; simp [List.countP_cons]
          · rw [h.2]; simp [List.replicate_succ]

/-- C7: a query unit whose retries are exhausted is caught, logged as one
warning, and skipped — the surrounding loop processes the remaining units
exactly as if the failed unit were absent, in both the populate_extra
category loop and the populate_wikidata phase-2a batch loop; and the fixed
inter-unit pause (3s, respectively 2s) is slept once per unit whether the
unit succeeded or failed. -/
theorem failed_unit_skipped_run_continues :
    (∀ cat us1 us2 st, (runCategoryExtra cat (us1 ++ none :: us2) st).1
        = (runCategoryExtra cat (us1 ++ us2) st).1) ∧
    (∀ cat us st, (runCategoryExtra cat us st).2.warnings
        = us.countP (fun u => u.isNone)) ∧
    (∀ cat us st, (runCategoryExtra cat us st).2.pauses
        = List.replicate us.length 3) ∧
    (∀ ns us1 us2 st, (phase2aBatches ns (us1 ++ none :: us2) st).1
        = (phase2aBatches ns (us1 ++ us2) st).1) ∧
    (∀ ns us st, (phase2aBatches ns us st).2.warnings
        = us.countP (fun u => u.isNone)) ∧
    (∀ ns us st, (phase2aBatches ns us st).2.pauses
        = List.replicate us.length 2) := by
  refine ⟨?_, ?_, ?_, ?_, ?_, ?_⟩
  · intro cat us1 us2 st
    have hF : ∀ (a : DB × Seen) (b : RunLog) (c : Option (List SparqlRow)),
        (catUnitStep cat (a, b) c).1
          = (fun (s : DB × Seen) (u : Option (List SparqlRow)) =>
              match u with
              | none => s
              | some rows => rows.foldl
                  (fun st r => stepExtra st ⟨cat, r.item, r.itemLabel, r.flag⟩) s) a c := by
      intro a b c; cases c <;> rfl
    unfold runCategoryExtra
    rw [foldl_pair_fst _ _ hF, foldl_pair_fst _ _ hF, List.foldl_append, List.foldl_append]
    rfl
  · intro cat us st
    have h := catFold_log cat us st ⟨0, []⟩
    simpa using h.1
  · intro cat us st
    have h := catFold_log cat us st ⟨0, []⟩
    simpa using h.2
  · intro ns us1 us2 st
    have hF : ∀ (a : DB × Seen) (b : RunLog) (c : Option (List WikidataRow)),
        (batchUnitStep ns (a, b) c).1
          = (fun (s : DB × Seen) (u : Option (List WikidataRow)) =>
              match u with
              | none => s
              | some rows => rows.foldl (phase2aRowStep ns) s) a c := by
      intro a b c; cases c <;> rfl
    unfold phase2aBatches
    rw [foldl_pair_fst _ _ hF, foldl_pair_fst _ _ hF, List.foldl_append, List.foldl_append]
    rfl
  · intro ns us st
    have h := batchFold_log ns us st ⟨0, []⟩
    simpa using h.1
  · intro ns us st
    have h := batchFold_log ns us st ⟨0, []⟩
    simpa using h.2

theorem append_ne_empty_left (s t : String) (h : s ≠ "") : s ++ t ≠ "" := by
  intro hEq
  apply h
  have hdata : (s ++ t).data = ([] : List Char) := by rw [hEq]
  rw [String.data_append] at hdata
  rcases List.append_eq_nil.mp hdata with ⟨h1, _⟩
  cases s
  simp_all

theorem phase1Normalize_some (row : CountryQueryRow) (key : String) (d : CountryDefaults)
    (h : phase1Normalize row = some (key, d)) :
    key ≠ "" ∧ d.cca2 = upperStr (trimStr row.isoA2) ∧ d.cca2 ≠ "" := by
  unfold phase1Normalize at h
  by_cases h1 : trimStr row.nameEn = "" ∨ upperStr (trimStr row.isoA2) = ""
  · simp [h1] at h
  · rw [if_neg h1] at h
    by_cases h2 : qidLabel (trimStr row.nameEn) = true
    · simp [h2] at h
    · rw [if_neg h2] at h
      simp only [Option.some.injEq, Prod.mk.injEq] at h
      obtain ⟨hk, hd⟩ := h
      have hiso2 : upperStr (trimStr row.isoA2) ≠ "" := by
        intro hc; exact h1 (Or.inr hc)
      subst hk
      subst hd
      refine ⟨?_, rfl, hiso2⟩
      by_cases h3 : upperStr (trimStr row.isoA3) = ""
      · rw [if_pos h3]
        exact append_ne_empty_left "X" _ (by decide)
      · rw [if_neg h3]
        exact h3

theorem mem_replaceFirstCountry (p : CountryRow → Bool) (u : CountryRow → CountryRow) :
    ∀ (l : List CountryRow) (x : CountryRow), x ∈ replaceFirstCountry p u l →
      x ∈ l ∨ ∃ y, y ∈ l ∧ p y = true ∧ x = u y := by
  intro l
  induction l with
  | nil => intro x hx; simp [replaceFirstCountry] at hx
  | cons c cs ih =>
      intro x hx
      by_cases hc : p c
      · rw [replaceFirstCountry, if_pos hc] at hx
        rcases List.mem_cons.mp hx with h | h
        · exact Or.inr ⟨c, List.mem_cons_self c cs, hc, h⟩
        · exact Or.inl (List.mem_cons_of_mem c h)
      · rw [replaceFirstCountry, if_neg hc] at hx
        rcases List.mem_cons.mp hx with h | h
        · exact Or.inl (h ▸ List.mem_cons_self c cs)
        · rcases ih x h with h' | ⟨y, hy, hpy, hxy⟩
          · exact Or.inl (List.mem_cons_of_mem c h')
          · exact Or.inr ⟨y, List.mem_cons_of_mem c hy, hpy, hxy⟩

theorem map_cca3_replaceFirst (key : String) (d : CountryDefaults) :
    ∀ l : List CountryRow,
      (replaceFirstCountry (fun c => c.cca3 == key) (fun c => applyDefaults c d) l).map
          (fun c => c.cca3)
        = l.map (fun c => c.cca3) := by
  intro l
  induction l with
  | nil => rfl
  | cons c cs ih =>
      by_cases hc : c.cca3 == key
      · rw [replaceFirstCountry, if_pos hc]
        simp [applyDefaults]
      · rw [replaceFirstCountry, if_neg hc]
        simp [ih]

theorem replace_update_cca2 (key : String) (d : CountryDefaults) (hc2 : d.cca2 ≠ "") :
    ∀ l : List CountryRow,
      (∀ c ∈ l, c.cca2 ≠ "") →
      l.Pairwise (fun a b => a.cca2 ≠ b.cca2) →
      (removeFirstCountry (fun c => c.cca3 == key) l).any
          (fun o => o.cca2 == d.cca2) = false →
      (∀ c ∈ replaceFirstCountry (fun c => c.cca3 == key)
          (fun c => applyDefaults c d) l, c.cca2 ≠ "") ∧
      (replaceFirstCountry (fun c => c.cca3 == key)
          (fun c => applyDefaults c d) l).Pairwise (fun a b => a.cca2 ≠ b.cca2) := by
  intro l
  induction l with
  | nil => intro _ _ _; simp [replaceFirstCountry]
  | cons c cs ih =>
      intro hne h2 hconf
      rw [List.pairwise_cons] at h2
      by_cases hc : c.cca3 == key
      · rw [removeFirstCountry, if_pos hc] at hconf
        have hnot : ∀ o ∈ cs, o.cca2 ≠ d.cca2 := by
          intro o ho
          have := List.any_eq_false.mp hconf o ho
          simpa using this
        rw [replaceFirstCountry, if_pos hc]
        constructor
        · intro x hx
          rcases List.mem_cons.mp hx with h | h
          · rw [h]; simpa [applyDefaults] using hc2
          · exact hne x (List.mem_cons_of_mem c h)
        · rw [List.pairwise_cons]
          refine ⟨?_, h2.2⟩
          intro b hb
          simp only [applyDefaults]
          exact fun hEq => hnot b hb hEq.symm
      · rw [removeFirstCountry, if_neg hc] at hconf
        have hconf' : (removeFirstCountry (fun c => c.cca3 == key) cs).any
            (fun o => o.cca2 == d.cca2) = false := by
          rcases List.any_eq_false.mp (by exact hconf) with _
          rw [List.any_cons] at hconf
          exact (Bool.or_eq_false_iff.mp hconf).2
        have hcd : c.cca2 ≠ d.cca2 := by
          rw [List.any_cons] at hconf
          have := (Bool.or_eq_false_iff.mp hconf).1
          simpa using this
        have hih := ih (fun x hx => hne x (List.mem_cons_of_mem c hx)) h2.2 hconf'
        rw [replaceFirstCountry, if_neg hc]
        constructor
        · intro x hx
          rcases List.mem_cons.mp hx with h | h
          · rw [h]; exact hne c (List.mem_cons_self c cs)
          · exact hih.1 x h
        · rw [List.pairwise_cons]
          refine ⟨?_, hih.2⟩
          intro b hb
          rcases mem_replaceFirstCountry _ _ cs b hb with h | ⟨y, hy, _, hby⟩
          · exact h2.1 b h
          · rw [hby]
            simp only [applyDefaults]
            exact hcd

theorem countryUpsert_codesOk (db : DB) (key : String) (d : CountryDefaults)
    (hkey : key ≠ "") (hc2 : d.cca2 ≠ "") (h : CodesOk db) :
    CodesOk (countryUpdateOrCreate db key d).1 := by
  obtain ⟨hne, h2, h3⟩ := h
  unfold countryUpdateOrCreate
  by_cases hfound : db.countries.any (fun c => c.cca3 == key)
  · by_cases hconf : (removeFirstCountry (fun c => c.cca3 == key) db.countries).any
        (fun o => o.cca2 == d.cca2)
    · simp only [hfound, if_true, hconf]
      exact ⟨hne, h2, h3⟩
    · rw [Bool.not_eq_true] at hconf
      simp only [hfound, if_true, hconf, Bool.false_eq_true, if_false]
      have hu := replace_update_cca2 key d hc2 db.countries
        (fun c hc => (hne c hc).1) h2 hconf
      refine ⟨?_, hu.2, ?_⟩
      · intro c hc
        refine ⟨hu.1 c hc, ?_⟩
        rcases mem_replaceFirstCountry _ _ db.countries c hc with h | ⟨y, hy, _, hcy⟩
        · exact (hne c h).2
        · rw [hcy]
          simpa [applyDefaults] using (hne y hy).2
      · have hmap := map_cca3_replaceFirst key d db.countries
        rw [← List.pairwise_map (f := fun c : CountryRow => c.cca3)] at h3 ⊢
        rw [hmap]
        exact h3
  · by_cases hconf : db.countries.any (fun o => o.cca2 == d.cca2 || o.cca3 == key)
    · simp only [hfound, Bool.false_eq_true, if_false, hconf, if_true]
      exact ⟨hne, h2, h3⟩
    · rw [Bool.not_eq_true] at hconf
      simp only [hfound, Bool.false_eq_true, if_false, hconf]
      have hclear : ∀ o ∈ db.countries, o.cca2 ≠ d.cca2 ∧ o.cca3 ≠ key := by
        intro o ho
        have := List.any_eq_false.mp hconf o ho
        constructor
        · intro hEq; apply this; simp [hEq]
        · intro hEq; apply this; simp [hEq]
      refine ⟨?_, ?_, ?_⟩
      · intro c hc
        rcases List.mem_append.mp hc with h | h
        · exact hne c h
        · rw [List.mem_singleton.mp h]
          exact ⟨hc2, hkey⟩
      · rw [List.pairwise_append]
        refine ⟨h2, List.pairwise_singleton _ _, ?_⟩
        intro a ha b hb
        rw [List.mem_singleton.mp hb]
        simpa [countryFromDefaults] using (hclear a ha).1
      · rw [List.pairwise_append]
        refine ⟨h3, List.pairwise_singleton _ _, ?_⟩
        intro a ha b hb
        rw [List.mem_singleton.mp hb]
        simpa [countryFromDefaults] using (hclear a ha).2

theorem phase1Step_codesOk (db : DB) (row : CountryQueryRow) (h : CodesOk db) :
    CodesOk (phase1Step db row) := by
  unfold phase1Step
  cases hn : phase1Normalize row with
  | none => exact h
  | some kd =>
      obtain ⟨hkey, _, hc2⟩ := phase1Normalize_some row kd.1 kd.2 (by rw [hn])
      exact countryUpsert_codesOk db kd.1 kd.2 hkey hc2 h

theorem popCountriesStep_codesOk (db : DB) (e : DatasetEntry) (h : CodesOk db) :
    CodesOk (popCountriesStep db e) := by
  unfold popCountriesStep
  by_cases hg : e.cca2 = "" ∨ e.cca3 = ""
  · rw [if_pos hg]; exact h
  · rw [if_neg hg]
    push_neg at hg
    exact countryUpsert_codesOk db e.cca3 _ hg.2 hg.1 h

/-- C9: for every persisted Country row the two-letter and three-letter
codes are non-empty, and each code is unique across the table; the
invariant is preserved by the phase-1 Wikidata country run and by the
populate_countries bulk run (the commands guard the codes non-empty and
the unique=True constraints turn any would-be duplicate into a caught,
skipped IntegrityError). -/
theorem country_codes_nonempty_unique_preserved (db : DB) (h : CodesOk db) :
    (∀ rows, CodesOk (phase1Run db rows)) ∧
    (∀ entries, CodesOk (popCountriesRun db entries)) := by
  constructor
  · intro rows
    unfold phase1Run
    induction rows generalizing db with
    | nil => exact h
    | cons r rs ih => exact ih (phase1Step db r) (phase1Step_codesOk db r h)
  · intro entries
    unfold popCountriesRun
    induction entries generalizing db with
    | nil => exact h
    | cons e es ih => exact ih (popCountriesStep db e) (popCountriesStep_codesOk db e h)

/-- C10: a phase-1 country record whose three-letter code is missing gets
its persisted cca3 synthesized as the letter X followed by the two-letter
code, and every record that reaches the upsert carries a non-empty
cca3 key. -/
theorem missing_iso3_synthesized_with_x :
    (∀ (row : CountryQueryRow) (key : String) (d : CountryDefaults),
        phase1Normalize row = some (key, d) →
        upperStr (trimStr row.isoA3) = "" →
        key = "X" ++ upperStr (trimStr row.isoA2)) ∧
    (∀ row key d, phase1Normalize row = some (key, d) → key ≠ "") := by
  constructor
  · intro row key d h h3
    unfold phase1Normalize at h
    by_cases h1 : trimStr row.nameEn = "" ∨ upperStr (trimStr row.isoA2) = ""
    · simp [h1] at h
    · rw [if_neg h1] at h
      by_cases h2 : qidLabel (trimStr row.nameEn) = true
      · simp [h2] at h
      · rw [if_neg h2] at h
        simp only [Option.some.injEq, Prod.mk.injEq] at h
        rw [← h.1, if_pos h3]
  · intro row key d h
    exact (phase1Normalize_some row key d h).1


/-- Witness for country_codes_nonempty_unique_preserved on a one-row run
from an empty store. -/
theorem country_codes_nonempty_unique_preserved_witness :
    CodesOk (phase1Run ⟨[], [], 0⟩
        [⟨"TL", "TLX", "Testland", none, "", "Dili", "", "asia"⟩]) ∧
    CodesOk (popCountriesRun ⟨[], [], 0⟩
        [⟨"Testland", "Republic of Testland", "TL", "TLX", ["Dili"], "Europe", ""⟩]) := by
  have h := country_codes_nonempty_unique_preserved ⟨[], [], 0⟩ (by simp [CodesOk])
  exact ⟨h.1 _, h.2 _⟩

/-- Witness for missing_iso3_synthesized_with_x: a record with iso2 "tl"
and no iso3 is keyed "XTL". -/
theorem missing_iso3_synthesized_with_x_witness :
    phase1Normalize ⟨" tl ", "", "Testland", none, "", "", "", ""⟩
        = some ("XTL", ⟨"Testland", "Testland", "TL", "", none, 0,
            "https://flagcdn.com/tl.svg", "https://flagcdn.com/w320/tl.png", "🇹🇱"⟩) ∧
    "XTL" = "X" ++ upperStr (trimStr " tl ") ∧ "XTL" ≠ "" := by
  have h : phase1Normalize ⟨" tl ", "", "Testland", none, "", "", "", ""⟩
      = some ("XTL", ⟨"Testland", "Testland", "TL", "", none, 0,
          "https://flagcdn.com/tl.svg", "https://flagcdn.com/w320/tl.png", "🇹🇱"⟩) := by
    decide
  exact ⟨h, missing_iso3_synthesized_with_x.1 _ _ _ h (by decide),
         missing_iso3_synthesized_with_x.2 _ _ _ h⟩

/-- C8 (amended): every record of the two Wikidata SPARQL commands whose
display label is the letter Q followed only by digits is rejected before
any write — phase 1 skips the row, populate_extra.save_flag returns with
store and seen set untouched, and populate_wikidata._save_flag leaves the
store untouched (its seen set may grow, as the check follows the dedup
insertion); the bulk-dataset command applies no such check. -/
theorem qid_labels_rejected_by_wikidata_ingestion :
    (∀ row : CountryQueryRow, qidLabel (trimStr row.nameEn) = true →
        phase1Normalize row = none) ∧
    (∀ db seen n u c w, qidLabel n = true →
        saveFlagExtra db seen n u c w = (db, seen, false)) ∧
    (∀ db seen n u c w i ds, qidLabel n = true →
        (saveFlagWikidata db seen n u c w i ds).1 = db ∧
        (saveFlagWikidata db seen n u c w i ds).2.2 = false) := by
  refine ⟨?_, ?_, ?_⟩
  · intro row hq
    unfold phase1Normalize
    by_cases h1 : trimStr row.nameEn = "" ∨ upperStr (trimStr row.isoA2) = ""
    · rw [if_pos h1]
    · rw [if_neg h1, if_pos hq]
  · intro db seen n u c w hq
    unfold saveFlagExtra
    by_cases h1 : n = "" ∨ u = ""
    · rw [if_pos h1]
    · rw [if_neg h1, if_pos hq]
  · intro db seen n u c w i ds hq
    unfold saveFlagWikidata
    by_cases h1 : n = "" ∨ u = ""
    · rw [if_pos h1]; exact ⟨rfl, rfl⟩
    · rw [if_neg h1]
      by_cases h2 : (if w ≠ "" then w else n) ∈ seen
      · rw [if_pos h2]; exact ⟨rfl, rfl⟩
      · rw [if_neg h2, if_pos hq]; exact ⟨rfl, rfl⟩

/-- C8 counterexample: populate_countries has no unresolved-label guard,
so a bulk-dataset entry named "Q42" is persisted as a Country
name_common matching the forbidden pattern. -/
theorem bulk_seed_persists_qid_label :
    (popCountriesRun ⟨[], [], 0⟩
        [⟨"Q42", "Q42", "TL", "TLX", [], "", ""⟩]).countries.map
          (fun c => c.name_common) = ["Q42"] ∧
    qidLabel "Q42" = true := by
  constructor
  · rfl
  · decide

/-- Witness for qid_labels_rejected_by_wikidata_ingestion at concrete
records. -/
theorem qid_labels_rejected_by_wikidata_ingestion_witness :
    saveFlagExtra ⟨[], [], 0⟩ [] "Q77" "http://i/x.png" "historical" ""
      = (⟨[], [], 0⟩, [], false) ∧
    phase1Normalize ⟨"TL", "TLX", "Q77", none, "", "", "", ""⟩ = none :=
  ⟨qid_labels_rejected_by_wikidata_ingestion.2.1 _ _ _ _ _ _ (by decide),
   qid_labels_rejected_by_wikidata_ingestion.1 _ (by decide)⟩

/-- C4 (amended): populate_extra's handle seeds the seen set with exactly
the non-empty external identifiers persisted in FlagCollection, and
re-ingesting a record whose identifier is seeded is discarded before any
write: the existing row is left unchanged (not updated) and no new row is
created.  (populate_wikidata's extras phase instead starts from an empty
seen set and refreshes the row through update_or_create.) -/
theorem seeded_dedup_key_skips_before_write :
    (∀ (db : DB) (x : String),
        x ∈ extraSeed db ↔ ((∃ f ∈ db.flags, f.wikidata_id = x) ∧ x ≠ "")) ∧
    (∀ db n u c w, w ≠ "" → w ∈ extraSeed db →
        saveFlagExtra db (extraSeed db) n u c w = (db, extraSeed db, false)) := by
  constructor
  · intro db x
    unfold extraSeed widsOf
    simp only [List.mem_filter, List.mem_map]
    constructor
    · rintro ⟨⟨f, hf, rfl⟩, hne⟩
      exact ⟨⟨f, hf, rfl⟩, by simpa using hne⟩
    · rintro ⟨⟨f, hf, rfl⟩, hne⟩
      exact ⟨⟨f, hf, rfl⟩, by simpa using hne⟩
  · intro db n u c w hw hmem
    unfold saveFlagExtra
    by_cases h1 : n = "" ∨ u = ""
    · rw [if_pos h1]
    · rw [if_neg h1]
      by_cases h2 : qidLabel n = true
      · rw [if_pos h2]
      · rw [if_neg h2, if_pos (show (if w ≠ "" then w else n) ∈ extraSeed db by
          rw [if_pos hw]; exact hmem)]

/-- C4 counterexample: with a persisted row (wikidata_id "Q1", name
"Old") and the same identifier incoming with name "New", a populate_extra
run leaves the row named "Old" — the record is skipped, not used to
update the existing row as the claim states. -/
theorem seeded_id_reingestion_not_updated :
    (runExtra [("historical",
        [some [⟨"http://www.wikidata.org/entity/Q1", "New", "http://i/new.png"⟩]])]
      ⟨[], [⟨0, "Old", "historical", "", "http://i/old.png", "Q1", none⟩], 1⟩).flags.map
        (fun f => f.name) = ["Old"] ∧
    (runExtra [("historical",
        [some [⟨"http://www.wikidata.org/entity/Q1", "New", "http://i/new.png"⟩]])]
      ⟨[], [⟨0, "Old", "historical", "", "http://i/old.png", "Q1", none⟩], 1⟩).flags.length
        = 1 ∧
    ("Old" : String) ≠ "New" := by
  refine ⟨rfl, rfl, by decide⟩

/-- Witness for seeded_dedup_key_skips_before_write at a concrete store. -/
theorem seeded_dedup_key_skips_before_write_witness :
    saveFlagExtra ⟨[], [⟨0, "Old", "historical", "", "http://i/old.png", "Q1", none⟩], 1⟩
        (extraSeed ⟨[], [⟨0, "Old", "historical", "", "http://i/old.png", "Q1", none⟩], 1⟩)
        "New" "http://i/new.png" "historical" "Q1"
      = (⟨[], [⟨0, "Old", "historical", "", "http://i/old.png", "Q1", none⟩], 1⟩,
         extraSeed ⟨[], [⟨0, "Old", "historical", "", "http://i/old.png", "Q1", none⟩], 1⟩,
         false) ∧
    ("Q1" ∈ extraSeed ⟨[], [⟨0, "Old", "historical", "", "http://i/old.png", "Q1", none⟩], 1⟩
      ↔ ((∃ f ∈ (⟨[], [⟨0, "Old", "historical", "", "http://i/old.png", "Q1", none⟩], 1⟩ :
          DB).flags, f.wikidata_id = "Q1") ∧ ("Q1" : String) ≠ "")) :=
  ⟨seeded_dedup_key_skips_before_write.2 _ _ _ _ _ (by decide) (by decide), seeded_dedup_key_skips_before_write.1 _ _⟩

/-- Truncation to 200 characters is the identity on short names. -/
theorem takeStr_eq_self (n : Nat) (s : String) (h : s.data.length ≤ n) :
    takeStr n s = s := by
  unfold takeStr
  rw [List.take_of_length_le h]

/-- Rows of a replace-first result come from the table, possibly through
the update function. -/
theorem mem_replaceFirstFlag (p : FlagRow → Bool) (u : FlagRow → FlagRow) :
    ∀ (l : List FlagRow) (x : FlagRow), x ∈ replaceFirstFlag p u l →
      x ∈ l ∨ ∃ y, y ∈ l ∧ p y = true ∧ x = u y := by
  intro l
  induction l with
  | nil => intro x hx; simp [replaceFirstFlag] at hx
  | cons c cs ih =>
      intro x hx
      by_cases hc : p c
      · rw [replaceFirstFlag, if_pos hc] at hx
        rcases List.mem_cons.mp hx with h | h
        · exact Or.inr ⟨c, List.mem_cons_self c cs, hc, h⟩
        · exact Or.inl (List.mem_cons_of_mem c h)
      · rw [replaceFirstFlag, if_neg hc] at hx
        rcases List.mem_cons.mp hx with h | h
        · exact Or.inl (h ▸ List.mem_cons_self c cs)
        · rcases ih x h with h' | ⟨y, hy, hpy, hxy⟩
          · exact Or.inl (List.mem_cons_of_mem c h')
          · exact Or.inr ⟨y, List.mem_cons_of_mem c hy, hpy, hxy⟩

/-- The store and seen set produced by a category loop equal the fold of
save_flag over the category's flattened records. -/
theorem runCategoryExtra_fst (cat : String) :
    ∀ (us : List (Option (List SparqlRow))) (st : DB × Seen) (lg : RunLog),
      (us.foldl (catUnitStep cat) (st, lg)).1 = (catRecs cat us).foldl stepExtra st := by
  intro us
  induction us with
  | nil => intro st lg; simp [catRecs]
  | cons u us' ih =>
      intro st lg
      cases u with
      | none =>
          rw [show ((none :: us').foldl (catUnitStep cat) (st, lg))
              = us'.foldl (catUnitStep cat) (st, ⟨lg.warnings + 1, lg.pauses ++ [3]⟩) from rfl]
          rw [ih st _]
          rw [show catRecs cat (none :: us') = catRecs cat us' by simp [catRecs]]
      | some rows =>
          rw [show ((some rows :: us').foldl (catUnitStep cat) (st, lg))
              = us'.foldl (catUnitStep cat)
                  ((rows.foldl (fun s r => stepExtra s ⟨cat, r.item, r.itemLabel, r.flag⟩) st),
                   ⟨lg.warnings, lg.pauses ++ [3]⟩) from rfl]
          rw [ih _ _]
          rw [show catRecs cat (some rows :: us')
              = rows.map (toExtraRec cat) ++ catRecs cat us' by simp [catRecs]]
          rw [List.foldl_append, List.foldl_map]
          rfl

/-- The whole extras ingest equals the fold of save_flag over the
flattened record list. -/
theorem ingestExtra_eq_flat :
    ∀ (cats : List (String × List (Option (List SparqlRow)))) (st : DB × Seen),
      ingestExtra cats st = (flatRecs cats).foldl stepExtra st := by
  intro cats
  induction cats with
  | nil => intro st; simp [ingestExtra, flatRecs]
  | cons c cs ih =>
      intro st
      rw [show ingestExtra (c :: cs) st
          = ingestExtra cs ((runCategoryExtra c.1 c.2 st).1) from rfl]
      rw [ih]
      rw [show (runCategoryExtra c.1 c.2 st).1
          = (catRecs c.1 c.2).foldl stepExtra st from runCategoryExtra_fst c.1 c.2 st _]
      rw [show flatRecs (c :: cs) = catRecs c.1 c.2 ++ flatRecs cs by simp [flatRecs]]
      rw [List.foldl_append]

/-- The flag upserts never touch the Country table. -/
theorem flagUpdateOrCreateE_countries (db : DB) (wid n c i : String) :
    (flagUpdateOrCreateE db wid n c i).1.countries = db.countries := by
  unfold flagUpdateOrCreateE; split_ifs <;> rfl

/-- The (name, category) upsert never touches the Country table. -/
theorem flagGetOrCreateE_countries (db : DB) (n c i : String) :
    (flagGetOrCreateE db n c i).1.countries = db.countries := by
  unfold flagGetOrCreateE; split_ifs <;> rfl

/-- populate_extra.save_flag never touches the Country table. -/
theorem saveFlagExtra_countries (db : DB) (seen : Seen) (n u c w : String) :
    (saveFlagExtra db seen n u c w).1.countries = db.countries := by
  unfold saveFlagExtra
  split_ifs <;>
      simp only [] <;>
    split_ifs <;>
      simp [flagUpdateOrCreateE_countries, flagGetOrCreateE_countries]

/-- A failed case-insensitive collision scan means no Country matches. -/
theorem country_check_false (db : DB) (n : String)
    (h : ¬db.countries.any (fun c => lowerStr c.name_common == lowerStr n) = true) :
    ∀ cc ∈ db.countries, lowerStr cc.name_common ≠ lowerStr n := by
  intro cc hcc
  rw [Bool.not_eq_true] at h
  have := List.any_eq_false.mp h cc hcc
  simpa using this

/-- A save_flag call on a short-named record only writes names that pass
the case-insensitive Country collision check. -/
theorem saveFlagExtra_noShadow (db : DB) (seen : Seen) (n u c w : String)
    (h : ∀ f ∈ db.flags, ∀ cc ∈ db.countries, lowerStr f.name ≠ lowerStr cc.name_common)
    (hlen : n.data.length ≤ 200) :
    ∀ f ∈ (saveFlagExtra db seen n u c w).1.flags, ∀ cc ∈ db.countries,
      lowerStr f.name ≠ lowerStr cc.name_common := by
  unfold saveFlagExtra
  by_cases h1 : n = "" ∨ u = ""
  · rw [if_pos h1]; exact h
  · rw [if_neg h1]
    by_cases h2 : qidLabel n = true
    · rw [if_pos h2]; exact h
    · rw [if_neg h2]
      by_cases h3 : (if w ≠ "" then w else n) ∈ seen
      · rw [if_pos h3]; exact h
      · rw [if_neg h3]
        by_cases h4 : db.countries.any (fun c => lowerStr c.name_common == lowerStr n) = true
        · rw [if_pos h4]; exact h
        · rw [if_neg h4]
          have hpass := country_check_false db n h4
          have hnew : ∀ cc ∈ db.countries,
              lowerStr (takeStr 200 n) ≠ lowerStr cc.name_common := by
            intro cc hcc
            rw [takeStr_eq_self 200 n hlen]
            exact fun hEq => hpass cc hcc hEq.symm
          by_cases h5 : w ≠ ""
          · rw [if_pos h5]
            show ∀ f ∈ (flagUpdateOrCreateE db w n c (imageUrlOf u)).1.flags, _
            unfold flagUpdateOrCreateE
            by_cases h6 : db.flags.any (fun f => f.wikidata_id == w) = true
            · rw [if_pos h6]
              intro f hf cc hcc
              rcases mem_replaceFirstFlag _ _ db.flags f hf with hm | ⟨y, hy, _, hfy⟩
              · exact h f hm cc hcc
              · rw [hfy]
                exact hnew cc hcc
            · rw [if_neg h6]
              intro f hf cc hcc
              rcases List.mem_append.mp hf with hm | hm
              · exact h f hm cc hcc
              · rw [List.mem_singleton.mp hm]
                exact hnew cc hcc
          · rw [if_neg h5]
            show ∀ f ∈ (flagGetOrCreateE db n c (imageUrlOf u)).1.flags, _
            unfold flagGetOrCreateE
            by_cases h6 : db.flags.any
                (fun f => f.name == takeStr 200 n && f.category == c) = true
            · rw [if_pos h6]
              exact h
            · rw [if_neg h6]
              intro f hf cc hcc
              rcases List.mem_append.mp hf with hm | hm
              · exact h f hm cc hcc
              · rw [List.mem_singleton.mp hm]
                exact hnew cc hcc

/-- No-shadowing is preserved along a fold of save_flag, and the Country
table is untouched. -/
theorem stepExtra_fold_noShadow :
    ∀ (recs : List ExtraRec) (st : DB × Seen),
      NoShadow st.1 →
      (∀ r ∈ recs, (trimStr r.itemLabel).data.length ≤ 200) →
      NoShadow (recs.foldl stepExtra st).1 ∧
        (recs.foldl stepExtra st).1.countries = st.1.countries := by
  intro recs
  induction recs with
  | nil => intro st h _; exact ⟨h, rfl⟩
  | cons r rest ih =>
      intro st h hlen
      have hstep : NoShadow (stepExtra st r).1 ∧ (stepExtra st r).1.countries
          = st.1.countries := by
        constructor
        · intro f hf cc hcc
          rw [show (stepExtra st r).1.countries = st.1.countries
              from saveFlagExtra_countries st.1 st.2 _ _ _ _] at hcc
          exact saveFlagExtra_noShadow st.1 st.2 (trimStr r.itemLabel) r.flag r.category
            (qidOf r.item) h (hlen r (List.mem_cons_self r rest)) f hf cc hcc
        · exact saveFlagExtra_countries st.1 st.2 _ _ _ _
      have := ih (stepExtra st r) hstep.1
        (fun x hx => hlen x (List.mem_cons_of_mem r hx))
      exact ⟨this.1, by rw [show ((r :: rest).foldl stepExtra st)
          = rest.foldl stepExtra (stepExtra st r) from rfl, this.2, hstep.2]⟩

/-- Cleanup only deletes rows. -/
theorem mem_cleanup (d : DB) (f : FlagRow) (h : f ∈ (cleanupDB d).flags) :
    f ∈ d.flags := by
  unfold cleanupDB cleanupPass3 cleanupPass2 cleanupPass1 at h
  simp only [List.mem_filter] at h
  exact h.1.1.1

/-- C3 (amended): populate_extra.save_flag discards any candidate whose
name case-insensitively matches an existing Country's common name (store
unchanged, nothing created), and a populate_extra run preserves the
no-country-shadowing invariant for inputs whose labels fit the 200-char
column; populate_wikidata's phase 2a skips only exact name matches, and
its phases 2b/2c apply no country check at all, so the global invariant
is not guaranteed by the code (see the counterexample). -/
theorem extras_discard_country_named_candidates :
    (∀ db seen n u c w,
        db.countries.any (fun cc => lowerStr cc.name_common == lowerStr n) = true →
        (saveFlagExtra db seen n u c w).1 = db ∧
          (saveFlagExtra db seen n u c w).2.2 = false) ∧
    (∀ cats db, NoShadow db →
        (∀ r ∈ flatRecs cats, (trimStr r.itemLabel).data.length ≤ 200) →
        NoShadow (runExtra cats db)) ∧
    (∀ ns st r, trimStr r.itemLabel ∈ ns → phase2aRowStep ns st r = st) := by
  refine ⟨?_, ?_, ?_⟩
  · intro db seen n u c w hmatch
    unfold saveFlagExtra
    by_cases h1 : n = "" ∨ u = ""
    · rw [if_pos h1]; exact ⟨rfl, rfl⟩
    · rw [if_neg h1]
      by_cases h2 : qidLabel n = true
      · rw [if_pos h2]; exact ⟨rfl, rfl⟩
      · rw [if_neg h2]
        by_cases h3 : (if w ≠ "" then w else n) ∈ seen
        · rw [if_pos h3]; exact ⟨rfl, rfl⟩
        · rw [if_neg h3, if_pos hmatch]; exact ⟨rfl, rfl⟩
  · intro cats db hsh hlen
    unfold runExtra
    rw [ingestExtra_eq_flat]
    have hfold := stepExtra_fold_noShadow (flatRecs cats) (db, extraSeed db) hsh hlen
    intro f hf cc hcc
    have hcount : (cleanupDB ((flatRecs cats).foldl stepExtra (db, extraSeed db)).1).countries
        = ((flatRecs cats).foldl stepExtra (db, extraSeed db)).1.countries := rfl
    rw [hcount] at hcc
    exact hfold.1 f (mem_cleanup _ f hf) cc hcc
  · intro ns st r h
    unfold phase2aRowStep
    rw [if_pos h]

/-- C3 counterexample: with Country "France" persisted, the phase-2b
historical loop of populate_wikidata saves a flag named "france" — the
case-insensitive variant of a country name is not discarded and the
no-shadowing invariant is violated after ingestion. -/
theorem wikidata_extras_persist_shadowing_name :
    ((phase2FixedStep "historical"
        (⟨[⟨"France", "French Republic", "FR", "FRA", "Paris", some "Europe", 0, "", "", ""⟩],
          [], 0⟩, [])
        ⟨"http://www.wikidata.org/entity/Q99", "france", "http://i/fr2.png"⟩).1.flags.map
          (fun f => f.name) = ["france"]) ∧
    lowerStr "france" = lowerStr "France" ∧
    ¬ NoShadow (phase2FixedStep "historical"
        (⟨[⟨"France", "French Republic", "FR", "FRA", "Paris", some "Europe", 0, "", "", ""⟩],
          [], 0⟩, [])
        ⟨"http://www.wikidata.org/entity/Q99", "france", "http://i/fr2.png"⟩).1 := by
  refine ⟨rfl, rfl, ?_⟩
  intro h
  exact absurd rfl (h ⟨0, "france", "historical", "", "http://i/fr2.png", "Q99", none⟩
    (by decide)
    ⟨"France", "French Republic", "FR", "FRA", "Paris", some "Europe", 0, "", "", ""⟩
    (by decide))

/-- Witness for extras_discard_country_named_candidates at a concrete
store. -/
theorem extras_discard_country_named_candidates_witness :
    (saveFlagExtra
        ⟨[⟨"France", "French Republic", "FR", "FRA", "Paris", some "Europe", 0, "", "", ""⟩],
         [], 0⟩
        [] "FRANCE" "http://i/x.png" "historical" "Q5").1
      = ⟨[⟨"France", "French Republic", "FR", "FRA", "Paris", some "Europe", 0, "", "", ""⟩],
         [], 0⟩ ∧
    phase2aRowStep ["France"]
        (⟨[⟨"France", "French Republic", "FR", "FRA", "Paris", some "Europe", 0, "", "", ""⟩],
          [], 0⟩, [])
        ⟨"http://www.wikidata.org/entity/Q7", "France", "http://i/fr.png", "FR"⟩
      = (⟨[⟨"France", "French Republic", "FR", "FRA", "Paris", some "Europe", 0, "", "", ""⟩],
          [], 0⟩, []) :=
  ⟨(extras_discard_country_named_candidates.1 _ _ _ _ _ _ (by decide)).1, extras_discard_country_named_candidates.2.2 _ _ _ (by decide)⟩

/-- Replacing a row in place never changes the row count. -/
theorem replaceFirstFlag_length (p : FlagRow → Bool) (u : FlagRow → FlagRow) :
    ∀ l : List FlagRow, (replaceFirstFlag p u l).length = l.length := by
  intro l
  induction l with
  | nil => rfl
  | cons c cs ih =>
      by_cases hc : p c
      · rw [replaceFirstFlag, if_pos hc]; rfl
      · rw [replaceFirstFlag, if_neg hc]; simpa using ih

/-- A row holding a non-empty external identifier is keyed by it. -/
theorem flagNatKey_inl (f : FlagRow) (wid : String) (hw : wid ≠ "")
    (h : f.wikidata_id = wid) : flagNatKey f = Sum.inl wid := by
  unfold flagNatKey
  rw [h, if_pos hw]

/-- After an in-place update keyed on a non-empty wikidata_id, under
distinct natural keys, every row holding that id carries the new non-key
field values. -/
theorem updated_fields_W (wid n c ds img : String) (ctry : Option String) (hw : wid ≠ "") :
    ∀ l : List FlagRow, l.Pairwise (fun f g => flagNatKey f ≠ flagNatKey g) →
      ∀ f ∈ replaceFirstFlag (fun f => f.wikidata_id == wid)
          (fun f => { f with name := takeStr 200 n, category := c,
                             description := takeStr 500 ds, flag_image := img,
                             country := ctry }) l,
        f.wikidata_id = wid →
          f.name = takeStr 200 n ∧ f.category = c ∧ f.description = takeStr 500 ds ∧
            f.flag_image = img ∧ f.country = ctry := by
  intro l
  induction l with
  | nil => intro _ f hf; simp [replaceFirstFlag] at hf
  | cons a as ih =>
      intro hdist f hf hfw
      rw [List.pairwise_cons] at hdist
      by_cases ha : a.wikidata_id == wid
      · rw [replaceFirstFlag, if_pos ha] at hf
        rcases List.mem_cons.mp hf with h | h
        · rw [h]
          exact ⟨rfl, rfl, rfl, rfl, rfl⟩
        · exfalso
          have haw : a.wikidata_id = wid := by simpa using ha
          exact hdist.1 f h
            (by rw [flagNatKey_inl a wid hw haw, flagNatKey_inl f wid hw hfw])
      · rw [replaceFirstFlag, if_neg ha] at hf
        rcases List.mem_cons.mp hf with h | h
        · exfalso
          rw [← h] at ha
          exact ha (by simp [hfw])
        · exact ih hdist.2 f h hfw

/-- The in-place update keyed on a non-empty wikidata_id does not change
any row's natural key. -/
theorem flagNatKey_map_replace (wid n c ds img : String) (ctry : Option String)
    (hw : wid ≠ "") :
    ∀ l : List FlagRow,
      (replaceFirstFlag (fun f => f.wikidata_id == wid)
          (fun f => { f with name := takeStr 200 n, category := c,
                             description := takeStr 500 ds, flag_image := img,
                             country := ctry }) l).map flagNatKey
        = l.map flagNatKey := by
  intro l
  induction l with
  | nil => rfl
  | cons a as ih =>
      by_cases ha : a.wikidata_id == wid
      · rw [replaceFirstFlag, if_pos ha]
        have haw : a.wikidata_id = wid := by simpa using ha
        simp only [List.map_cons]
        congr 1
        rw [flagNatKey_inl a wid hw haw]
        exact flagNatKey_inl _ wid hw haw
      · rw [replaceFirstFlag, if_neg ha]
        simp only [List.map_cons, ih]

/-- After an in-place Country update, under distinct cca3 keys, the
key-matching row is the old row overwritten with the defaults. -/
theorem updated_country_fields (key : String) (d : CountryDefaults) :
    ∀ l : List CountryRow, l.Pairwise (fun a b => a.cca3 ≠ b.cca3) →
      ∀ c ∈ replaceFirstCountry (fun c => c.cca3 == key)
          (fun c => applyDefaults c d) l,
        c.cca3 = key → ∃ c₀, c₀ ∈ l ∧ c₀.cca3 = key ∧ c = applyDefaults c₀ d := by
  intro l
  induction l with
  | nil => intro _ c hc; simp [replaceFirstCountry] at hc
  | cons a as ih =>
      intro hdist c hc hck
      rw [List.pairwise_cons] at hdist
      by_cases ha : a.cca3 == key
      · rw [replaceFirstCountry, if_pos ha] at hc
        rcases List.mem_cons.mp hc with h | h
        · exact ⟨a, List.mem_cons_self a as, by simpa using ha, h⟩
        · exfalso
          have : a.cca3 = key := by simpa using ha
          exact hdist.1 c h (this.trans hck.symm)
      · rw [replaceFirstCountry, if_neg ha] at hc
        rcases List.mem_cons.mp hc with h | h
        · exfalso
          rw [← h] at ha
          exact ha (by simp [hck])
        · rcases ih hdist.2 c h hck with ⟨c₀, hc₀, hk, he⟩
          exact ⟨c₀, List.mem_cons_of_mem a hc₀, hk, he⟩

/-- update_or_create keyed on a non-empty wikidata_id keeps natural keys
pairwise distinct. -/
theorem flagUpdateOrCreateW_keys (db : DB) (wid n c ds img : String)
    (ctry : Option String) (hw : wid ≠ "") (hd : FlagKeysDistinct db.flags) :
    FlagKeysDistinct (flagUpdateOrCreateW db wid n c ds img ctry).1.flags := by
  unfold FlagKeysDistinct at hd ⊢
  unfold flagUpdateOrCreateW
  by_cases hfound : db.flags.any (fun f => f.wikidata_id == wid) = true
  · rw [if_pos hfound]
    rw [← List.pairwise_map (f := flagNatKey)] at hd ⊢
    rw [flagNatKey_map_replace wid n c ds img ctry hw db.flags]
    exact hd
  · rw [if_neg hfound]
    rw [Bool.not_eq_true] at hfound
    have hnone := List.any_eq_false.mp hfound
    show List.Pairwise _ (db.flags ++ [_])
    rw [List.pairwise_append]
    refine ⟨hd, List.pairwise_singleton _ _, ?_⟩
    intro f hf b hb
    rw [List.mem_singleton.mp hb]
    have hkb : flagNatKey ⟨db.nextId, takeStr 200 n, c, takeStr 500 ds, img, wid, ctry⟩
        = Sum.inl wid := flagNatKey_inl _ wid hw rfl
    rw [hkb]
    unfold flagNatKey
    by_cases hfw : f.wikidata_id ≠ ""
    · rw [if_pos hfw]
      intro hEq
      have : f.wikidata_id = wid := by injection hEq
      exact hnone f hf (by simp [this])
    · rw [if_neg hfw]
      intro hEq
      exact Sum.noConfusion hEq

/-- get_or_create keyed on (name, category) keeps natural keys pairwise
distinct. -/
theorem flagGetOrCreateW_keys (db : DB) (n c ds img : String)
    (ctry : Option String) (hd : FlagKeysDistinct db.flags) :
    FlagKeysDistinct (flagGetOrCreateW db n c ds img ctry).1.flags := by
  unfold FlagKeysDistinct at hd ⊢
  unfold flagGetOrCreateW
  by_cases hfound : db.flags.any
      (fun f => f.name == takeStr 200 n && f.category == c) = true
  · rw [if_pos hfound]
    exact hd
  · rw [if_neg hfound]
    rw [Bool.not_eq_true] at hfound
    have hnone := List.any_eq_false.mp hfound
    show List.Pairwise _ (db.flags ++ [_])
    rw [List.pairwise_append]
    refine ⟨hd, List.pairwise_singleton _ _, ?_⟩
    intro f hf b hb
    rw [List.mem_singleton.mp hb]
    have hkb : flagNatKey ⟨db.nextId, takeStr 200 n, c, takeStr 500 ds, img, "", ctry⟩
        = Sum.inr (takeStr 200 n, c) := by
      unfold flagNatKey
      rw [if_neg (by simp)]
    rw [hkb]
    unfold flagNatKey
    by_cases hfw : f.wikidata_id ≠ ""
    · rw [if_pos hfw]
      intro hEq
      exact Sum.noConfusion hEq
    · rw [if_neg hfw]
      intro hEq
      have h1 : f.name = takeStr 200 n ∧ f.category = c := by
        have := Sum.inr.inj hEq
        exact ⟨congrArg Prod.fst this, congrArg Prod.snd this⟩
      exact hnone f hf (by simp [h1.1, h1.2])

/-- C2 (amended): the upserts insert a new row built from the record when
no row carries the natural key; on the external-identifier path an
existing row is updated in place — row count unchanged, all defaulted
non-key fields overwritten; on the (name, category) path an existing row
is returned unchanged — get_or_create performs no field update; neither
path ever creates a second row with an existing natural key (pairwise
distinctness of keys is preserved); the Country upsert keyed on cca3
likewise inserts when absent and otherwise overwrites the existing row's
non-key fields in place, keeping the cca3 column unchanged. -/
theorem natural_key_upsert_semantics :
    (∀ db wid n c ds img ctry,
        db.flags.any (fun f => f.wikidata_id == wid) = false →
        (flagUpdateOrCreateW db wid n c ds img ctry).1.flags
          = db.flags ++ [⟨db.nextId, takeStr 200 n, c, takeStr 500 ds, img, wid, ctry⟩]) ∧
    (∀ db wid n c ds img ctry, wid ≠ "" → FlagKeysDistinct db.flags →
        db.flags.any (fun f => f.wikidata_id == wid) = true →
        (flagUpdateOrCreateW db wid n c ds img ctry).1.flags.length = db.flags.length ∧
        (∀ f ∈ (flagUpdateOrCreateW db wid n c ds img ctry).1.flags,
          f.wikidata_id = wid →
            f.name = takeStr 200 n ∧ f.category = c ∧ f.description = takeStr 500 ds ∧
              f.flag_image = img ∧ f.country = ctry)) ∧
    (∀ db n c ds img ctry,
        db.flags.any (fun f => f.name == takeStr 200 n && f.category == c) = false →
        (flagGetOrCreateW db n c ds img ctry).1.flags
          = db.flags ++ [⟨db.nextId, takeStr 200 n, c, takeStr 500 ds, img, "", ctry⟩]) ∧
    (∀ db n c ds img ctry,
        db.flags.any (fun f => f.name == takeStr 200 n && f.category == c) = true →
        (flagGetOrCreateW db n c ds img ctry).1 = db) ∧
    (∀ db n c img,
        db.flags.any (fun f => f.name == takeStr 200 n && f.category == c) = true →
        (flagGetOrCreateE db n c img).1 = db) ∧
    (∀ db wid n c ds img ctry, wid ≠ "" → FlagKeysDistinct db.flags →
        FlagKeysDistinct (flagUpdateOrCreateW db wid n c ds img ctry).1.flags) ∧
    (∀ db n c ds img ctry, FlagKeysDistinct db.flags →
        FlagKeysDistinct (flagGetOrCreateW db n c ds img ctry).1.flags) ∧
    (∀ db key d,
        db.countries.any (fun c => c.cca3 == key) = true →
        (removeFirstCountry (fun c => c.cca3 == key) db.countries).any
            (fun o => o.cca2 == d.cca2) = false →
        ((countryUpdateOrCreate db key d).1.countries.map (fun c => c.cca3)
            = db.countries.map (fun c => c.cca3)) ∧
        (db.countries.Pairwise (fun a b => a.cca3 ≠ b.cca3) →
          ∀ c ∈ (countryUpdateOrCreate db key d).1.countries, c.cca3 = key →
            ∃ c₀, c₀ ∈ db.countries ∧ c₀.cca3 = key ∧ c = applyDefaults c₀ d)) ∧
    (∀ db key d,
        db.countries.any (fun c => c.cca3 == key) = false →
        db.countries.any (fun o => o.cca2 == d.cca2 || o.cca3 == key) = false →
        (countryUpdateOrCreate db key d).1.countries
          = db.countries ++ [countryFromDefaults key d]) := by
  refine ⟨?_, ?_, ?_, ?_, ?_, flagUpdateOrCreateW_keys, flagGetOrCreateW_keys, ?_, ?_⟩
  · intro db wid n c ds img ctry h
    unfold flagUpdateOrCreateW
    rw [if_neg (by rw [h]; exact Bool.false_ne_true)]
  · intro db wid n c ds img ctry hw hd hfound
    unfold flagUpdateOrCreateW
    rw [if_pos hfound]
    exact ⟨replaceFirstFlag_length _ _ db.flags,
           updated_fields_W wid n c ds img ctry hw db.flags hd⟩
  · intro db n c ds img ctry h
    unfold flagGetOrCreateW
    rw [if_neg (by rw [h]; exact Bool.false_ne_true)]
  · intro db n c ds img ctry h
    unfold flagGetOrCreateW
    rw [if_pos h]
  · intro db n c img h
    unfold flagGetOrCreateE
    rw [if_pos h]
  · intro db key d hfound hconf
    unfold countryUpdateOrCreate
    rw [if_pos hfound, if_neg (by rw [hconf]; exact Bool.false_ne_true)]
    exact ⟨map_cca3_replaceFirst key d db.countries,
           fun hp => updated_country_fields key d db.countries hp⟩
  · intro db key d hfound hconf
    unfold countryUpdateOrCreate
    rw [if_neg (by rw [hfound]; exact Bool.false_ne_true),
        if_neg (by rw [hconf]; exact Bool.false_ne_true)]

/-- C2 counterexample: a record without an external identifier whose
(name, category) pair matches an existing row leaves the row's non-key
fields untouched — the incoming image URL is dropped instead of being
written, contradicting the claim that all non-key fields are updated in
place. -/
theorem name_category_upsert_does_not_update :
    (saveFlagExtra ⟨[], [⟨0, "Alpha", "historical", "", "http://i/old.png", "", none⟩], 1⟩
        [] "Alpha" "http://i/new.png" "historical" "").1
      = ⟨[], [⟨0, "Alpha", "historical", "", "http://i/old.png", "", none⟩], 1⟩ ∧
    ((saveFlagExtra ⟨[], [⟨0, "Alpha", "historical", "", "http://i/old.png", "", none⟩], 1⟩
        [] "Alpha" "http://i/new.png" "historical" "").1.flags.map
          (fun f => f.flag_image)) = ["http://i/old.png"] ∧
    ("http://i/old.png" : String) ≠ "http://i/new.png" := by
  refine ⟨rfl, rfl, by decide⟩

/-- Witness for natural_key_upsert_semantics at concrete stores. -/
theorem natural_key_upsert_semantics_witness :
    ((flagUpdateOrCreateW ⟨[], [], 0⟩ "Q1" "Nm" "historical" "" "http://i/a.png" none).1.flags
      = [] ++ [⟨0, takeStr 200 "Nm", "historical", takeStr 500 "", "http://i/a.png",
                "Q1", none⟩]) ∧
    ((flagUpdateOrCreateW ⟨[], [⟨0, "A", "historical", "", "http://i/1.png", "Q1", none⟩], 1⟩
        "Q1" "B" "state" "d" "http://i/2.png" none).1.flags.length
      = (⟨[], [⟨0, "A", "historical", "", "http://i/1.png", "Q1", none⟩], 1⟩ : DB).flags.length) ∧
    ((flagGetOrCreateW ⟨[], [], 0⟩ "Nm" "historical" "" "http://i/a.png" none).1.flags
      = [] ++ [⟨0, takeStr 200 "Nm", "historical", takeStr 500 "", "http://i/a.png",
                "", none⟩]) ∧
    ((flagGetOrCreateW ⟨[], [⟨0, "Nm", "historical", "", "http://i/1.png", "", none⟩], 1⟩
        "Nm" "historical" "" "http://i/2.png" none).1
      = ⟨[], [⟨0, "Nm", "historical", "", "http://i/1.png", "", none⟩], 1⟩) ∧
    ((flagGetOrCreateE ⟨[], [⟨0, "Nm", "historical", "", "http://i/1.png", "", none⟩], 1⟩
        "Nm" "historical" "http://i/2.png").1
      = ⟨[], [⟨0, "Nm", "historical", "", "http://i/1.png", "", none⟩], 1⟩) ∧
    FlagKeysDistinct (flagUpdateOrCreateW
        ⟨[], [⟨0, "A", "historical", "", "http://i/1.png", "Q1", none⟩], 1⟩
        "Q1" "B" "state" "d" "http://i/2.png" none).1.flags ∧
    FlagKeysDistinct (flagGetOrCreateW ⟨[], [], 0⟩
        "Nm" "historical" "" "http://i/a.png" none).1.flags ∧
    ((countryUpdateOrCreate
        ⟨[⟨"France", "French Republic", "FR", "FRA", "Paris", none, 0, "", "", ""⟩], [], 0⟩
        "FRA" ⟨"France", "République", "FR", "Paris", none, 5, "s", "p", "e"⟩).1.countries.map
          (fun c => c.cca3)
      = (⟨[⟨"France", "French Republic", "FR", "FRA", "Paris", none, 0, "", "", ""⟩],
          [], 0⟩ : DB).countries.map (fun c => c.cca3)) ∧
    ((countryUpdateOrCreate ⟨[], [], 0⟩ "TLX"
        ⟨"Testland", "Testland", "TL", "", none, 0, "s", "p", "e"⟩).1.countries
      = [] ++ [countryFromDefaults "TLX" ⟨"Testland", "Testland", "TL", "", none, 0,
          "s", "p", "e"⟩]) := by
  refine ⟨natural_key_upsert_semantics.1 _ _ _ _ _ _ _ (by decide),
          (natural_key_upsert_semantics.2.1 _ _ _ _ _ _ _ (by decide)
            (by unfold FlagKeysDistinct; exact List.pairwise_singleton _ _) (by decide)).1,
          natural_key_upsert_semantics.2.2.1 _ _ _ _ _ _ (by decide),
          natural_key_upsert_semantics.2.2.2.1 _ _ _ _ _ _ (by decide),
          natural_key_upsert_semantics.2.2.2.2.1 _ _ _ _ (by decide),
          natural_key_upsert_semantics.2.2.2.2.2.1 _ _ _ _ _ _ _ (by decide)
            (by unfold FlagKeysDistinct; exact List.pairwise_singleton _ _),
          natural_key_upsert_semantics.2.2.2.2.2.2.1 _ _ _ _ _ _
            (by unfold FlagKeysDistinct; exact List.Pairwise.nil),
          (natural_key_upsert_semantics.2.2.2.2.2.2.2.1 _ _ _ (by decide) (by decide)).1,
          natural_key_upsert_semantics.2.2.2.2.2.2.2.2 _ _ _ (by decide) (by decide)⟩

/-- Lexicographic character order is transitive. -/
theorem charLtList_trans :
    ∀ a b c : List Char, charLtList a b = true → charLtList b c = true →
      charLtList a c = true := by
  intro a
  induction a with
  | nil =>
      intro b c hab hbc
      cases b with
      | nil => simp [charLtList] at hab
      | cons y ys =>
          cases c with
          | nil => simp [charLtList] at hbc
          | cons z zs => simp [charLtList]
  | cons x xs ih =>
      intro b c hab hbc
      cases b with
      | nil => simp [charLtList] at hab
      | cons y ys =>
          cases c with
          | nil => simp [charLtList] at hbc
          | cons z zs =>
              rw [charLtList] at hab hbc ⊢
              by_cases hxy : x = y
              · subst hxy
                rw [if_pos rfl] at hab
                by_cases hyz : x = z
                · subst hyz
                  rw [if_pos rfl] at hbc ⊢
                  exact ih ys zs hab hbc
                · rw [if_neg hyz] at hbc ⊢
                  exact hbc
              · rw [if_neg hxy] at hab
                have hlt : x < y := of_decide_eq_true hab
                by_cases hyz : y = z
                · subst hyz
                  rw [if_neg hxy]
                  exact decide_eq_true hlt
                · rw [if_neg hyz] at hbc
                  have hlt2 : y < z := of_decide_eq_true hbc
                  have hxz : x < z := lt_trans hlt hlt2
                  rw [if_neg (ne_of_lt hxz)]
                  exact decide_eq_true hxz
  
/-- Lexicographic character order is irreflexive. -/
theorem charLtList_irrefl : ∀ a : List Char, charLtList a a = false := by
  intro a
  induction a with
  | nil => rfl
  | cons x xs ih => rw [charLtList, if_pos rfl]; exact ih

/-- Characterization of the pass-3 preference order. -/
theorem flagPrefOrder_iff (f g : FlagRow) :
    flagPrefOrder f g = true ↔
      f.name.data.length < g.name.data.length ∨
        (f.name.data.length = g.name.data.length ∧
          (charLtList f.name.data g.name.data = true ∨
            (f.name = g.name ∧ f.id < g.id))) := by
  unfold flagPrefOrder
  simp [Bool.or_eq_true, Bool.and_eq_true, beq_iff_eq, decide_eq_true_iff]

/-- The pass-3 preference order is transitive. -/
theorem flagPrefOrder_trans (a b c : FlagRow) (hab : flagPrefOrder a b = true)
    (hbc : flagPrefOrder b c = true) : flagPrefOrder a c = true := by
  rw [flagPrefOrder_iff] at hab hbc ⊢
  rcases hab with h1 | ⟨h1, h2⟩
  · rcases hbc with h3 | ⟨h3, _⟩
    · exact Or.inl (h1.trans h3)
    · exact Or.inl (h3 ▸ h1)
  · rcases hbc with h3 | ⟨h3, h4⟩
    · exact Or.inl (h1 ▸ h3)
    · refine Or.inr ⟨h1.trans h3, ?_⟩
      rcases h2 with h2 | ⟨h2a, h2b⟩
      · rcases h4 with h4 | ⟨h4a, h4b⟩
        · exact Or.inl (charLtList_trans _ _ _ h2 h4)
        · exact Or.inl (by rw [← congrArg String.data h4a]; exact h2)
      · rcases h4 with h4 | ⟨h4a, h4b⟩
        · exact Or.inl (by rw [congrArg String.data h2a]; exact h4)
        · exact Or.inr ⟨h2a.trans h4a, h2b.trans h4b⟩

/-- The pass-3 preference order is irreflexive. -/
theorem flagPrefOrder_irrefl (a : FlagRow) : flagPrefOrder a a = false := by
  unfold flagPrefOrder
  simp [charLtList_irrefl]

/-- The pick fold returns its seed or something preferred to it. -/
theorem foldPick_le_acc :
    ∀ (fs : List FlagRow) (a : FlagRow),
      fs.foldl (fun a g => if flagPrefOrder g a then g else a) a = a ∨
        flagPrefOrder (fs.foldl (fun a g => if flagPrefOrder g a then g else a) a) a
          = true := by
  intro fs
  induction fs with
  | nil => intro a; exact Or.inl rfl
  | cons g fs' ih =>
      intro a
      rw [List.foldl_cons]
      by_cases hga : flagPrefOrder g a = true
      · rw [if_pos hga]
        rcases ih g with h | h
        · rw [h]
          exact Or.inr hga
        · exact Or.inr (flagPrefOrder_trans _ _ _ h hga)
      · rw [if_neg hga]
        exact ih a

/-- The pick fold returns its seed or a list element. -/
theorem foldPick_mem :
    ∀ (fs : List FlagRow) (a : FlagRow),
      fs.foldl (fun a g => if flagPrefOrder g a then g else a) a = a ∨
        fs.foldl (fun a g => if flagPrefOrder g a then g else a) a ∈ fs := by
  intro fs
  induction fs with
  | nil => intro a; exact Or.inl rfl
  | cons g fs' ih =>
      intro a
      rw [List.foldl_cons]
      by_cases hga : flagPrefOrder g a = true
      · rw [if_pos hga]
        rcases ih g with h | h
        · rw [h]
          exact Or.inr (List.mem_cons_self g fs')
        · exact Or.inr (List.mem_cons_of_mem g h)
      · rw [if_neg hga]
        rcases ih a with h | h
        · exact Or.inl h
        · exact Or.inr (List.mem_cons_of_mem g h)

/-- Nothing in seed or list is preferred to the pick fold result. -/
theorem foldPick_min :
    ∀ (fs : List FlagRow) (a x : FlagRow), (x = a ∨ x ∈ fs) →
      flagPrefOrder x (fs.foldl (fun a g => if flagPrefOrder g a then g else a) a)
        = false := by
  intro fs
  induction fs with
  | nil =>
      intro a x hx
      rcases hx with h | hx
      · rw [h]
        exact flagPrefOrder_irrefl a
      · simp at hx
  | cons g fs' ih =>
      intro a x hx
      rw [List.foldl_cons]
      by_cases hga : flagPrefOrder g a = true
      · rw [if_pos hga]
        rcases hx with h | hx
        · subst h
          by_contra hcon
          rw [Bool.not_eq_false] at hcon
          rcases foldPick_le_acc fs' g with h | h
          · rw [h] at hcon
            have h2 := flagPrefOrder_trans _ _ _ hcon hga
            rw [flagPrefOrder_irrefl x] at h2
            exact Bool.false_ne_true h2
          · have h2 := flagPrefOrder_trans _ _ _ hcon h
            have h3 := flagPrefOrder_trans _ _ _ h2 hga
            rw [flagPrefOrder_irrefl x] at h3
            exact Bool.false_ne_true h3
        · rcases List.mem_cons.mp hx with h | hx
          · exact ih g x (Or.inl h)
          · exact ih g x (Or.inr hx)
      · rw [if_neg hga]
        rcases hx with h | hx
        · exact ih a x (Or.inl h)
        · rcases List.mem_cons.mp hx with h | hx
          · subst h
            by_contra hcon
            rw [Bool.not_eq_false] at hcon
            rcases foldPick_le_acc fs' a with h | h
            · rw [h] at hcon
              exact hga hcon
            · exact hga (flagPrefOrder_trans _ _ _ hcon h)
          · exact ih a x (Or.inr hx)

/-- The kept row of a group belongs to it and is minimal. -/
theorem chooseKept_spec (l : List FlagRow) (m : FlagRow) (h : chooseKept l = some m) :
    m ∈ l ∧ ∀ x ∈ l, flagPrefOrder x m = false := by
  cases l with
  | nil => simp [chooseKept] at h
  | cons f fs =>
      rw [chooseKept, Option.some.injEq] at h
      constructor
      · rw [← h]
        rcases foldPick_mem fs f with h2 | h2
        · rw [h2]
          exact List.mem_cons_self f fs
        · exact List.mem_cons_of_mem f h2
      · intro x hx
        rw [← h]
        rcases List.mem_cons.mp hx with h2 | h2
        · exact foldPick_min fs f x (Or.inl h2)
        · exact foldPick_min fs f x (Or.inr h2)

/-- Under pairwise-distinct images every image group is a singleton. -/
theorem groups_singleton (l : List FlagRow)
    (himg : l.Pairwise (fun f g => f.flag_image ≠ g.flag_image)) :
    ∀ f ∈ l, l.filter (fun g => g.flag_image == f.flag_image) = [f] := by
  induction l with
  | nil => intro f hf; simp at hf
  | cons a as ih =>
      intro f hf
      rw [List.pairwise_cons] at himg
      rcases List.mem_cons.mp hf with h | h
      · subst h
        rw [List.filter_cons_of_pos (by simp)]
        rw [List.filter_eq_nil_iff.mpr ?_]
        intro g hg
        simp only [beq_iff_eq]
        exact fun hEq => himg.1 g hg hEq.symm
      · rw [List.filter_cons_of_neg (by
          simp only [beq_iff_eq]
          exact himg.1 f h)]
        exact ih himg.2 f h

/-- Pass 3 is the identity when no two rows share an image. -/
theorem pass3_eq_self (l : List FlagRow)
    (himg : l.Pairwise (fun f g => f.flag_image ≠ g.flag_image)) :
    cleanupPass3 l = l := by
  unfold cleanupPass3
  apply List.filter_eq_self.mpr
  intro f hf
  rw [groups_singleton l himg f hf]
  rw [show chooseKept [f] = some f from rfl]
  simp

/-- A row surviving pass 3 is the chosen row of its image group. -/
theorem mem_pass3 (l : List FlagRow) (f : FlagRow) (h : f ∈ cleanupPass3 l) :
    f ∈ l ∧ chooseKept (l.filter (fun g => g.flag_image == f.flag_image)) = some f := by
  unfold cleanupPass3 at h
  have h2 := List.mem_filter.mp h
  refine ⟨h2.1, ?_⟩
  have := h2.2
  simpa using this

/-- After pass 3, rows with distinct ids have distinct images. -/
theorem pass3_images_distinct (l : List FlagRow) (hid : IdsDistinct l) :
    (cleanupPass3 l).Pairwise (fun f g => f.flag_image ≠ g.flag_image) := by
  have hid' : IdsDistinct (cleanupPass3 l) :=
    List.Pairwise.sublist (List.filter_sublist l) hid
  refine List.Pairwise.imp_of_mem ?_ hid'
  intro a b ha hb hab
  intro hEq
  have hka := (mem_pass3 l a ha).2
  have hkb := (mem_pass3 l b hb).2
  rw [hEq] at hka
  rw [hka] at hkb
  exact hab (congrArg FlagRow.id (Option.some.inj hkb))

/-- Filtering a distinct-id table for one row yields exactly it. -/
theorem filter_beq_singleton (l : List FlagRow) (m : FlagRow) (hid : IdsDistinct l)
    (hm : m ∈ l) : l.filter (fun f => f == m) = [m] := by
  induction l with
  | nil => simp at hm
  | cons a as ih =>
      unfold IdsDistinct at hid
      rw [List.pairwise_cons] at hid
      rcases List.mem_cons.mp hm with h | h
      · subst h
        rw [List.filter_cons_of_pos (by simp)]
        rw [List.filter_eq_nil_iff.mpr ?_]
        intro g hg
        simp only [beq_iff_eq]
        intro hEq
        exact hid.1 g hg (by rw [hEq])
      · rw [List.filter_cons_of_neg (by
          simp only [beq_iff_eq]
          intro hEq
          exact hid.1 m h (by rw [hEq]))]
        exact ih hid.2 h

/-- The survivors of pass 3 carrying a given image are exactly the chosen row of that image group. -/
theorem pass3_filter_group (l : List FlagRow) (u : String) (m : FlagRow)
    (hid : IdsDistinct l)
    (h : chooseKept (l.filter (fun g => g.flag_image == u)) = some m) :
    (cleanupPass3 l).filter (fun f => f.flag_image == u) = [m] := by
  have hspec := chooseKept_spec _ m h
  have hm_l : m ∈ l := (List.mem_filter.mp hspec.1).1
  have hmu : m.flag_image = u := by
    have := (List.mem_filter.mp hspec.1).2
    simpa using this
  unfold cleanupPass3
  rw [List.filter_filter]
  rw [List.filter_congr ?_]
  · exact filter_beq_singleton l m hid hm_l
  · intro f hf
    by_cases hfu : f.flag_image = u
    · have hgrp : l.filter (fun g => g.flag_image == f.flag_image)
          = l.filter (fun g => g.flag_image == u) := by rw [hfu]
      by_cases hmf : f = m
      · simp [hmf, hgrp, h, hmu]
      · simp only [hgrp, h]
        have h1 : (some m == some f) = false := by
          simp only [beq_eq_false_iff_ne, ne_eq, Option.some.injEq]
          exact fun hEq => hmf hEq.symm
        have h2 : (f == m) = false := by
          simp only [beq_eq_false_iff_ne, ne_eq]
          exact hmf
        simp [h1, h2]
    · have h2 : (f == m) = false := by
        simp only [beq_eq_false_iff_ne, ne_eq]
        intro hEq
        exact hfu (by rw [hEq, hmu])
      have h3 : (f.flag_image == u) = false := by
        simp only [beq_eq_false_iff_ne, ne_eq]
        exact hfu
      simp [h2, h3]

/-- C5: after cleanup no two FlagCollection rows share an image URL;
within each image group the kept row is the group's preferred row
(shortest name, deterministic tie-break) and it keeps exactly that one
row; re-running cleanup changes nothing; and when no row matches any
pass (no country-flag duplicates, no noise names, no shared images)
cleanup leaves the store untouched. -/
theorem cleanup_collapses_duplicate_images :
    (∀ db : DB, IdsDistinct db.flags →
        (cleanupDB db).flags.Pairwise (fun f g => f.flag_image ≠ g.flag_image)) ∧
    (∀ db : DB, IdsDistinct db.flags → cleanupDB (cleanupDB db) = cleanupDB db) ∧
    (∀ (db : DB) (u : String) (m : FlagRow), IdsDistinct db.flags →
        chooseKept ((cleanupPass2 (cleanupPass1 db.countries db.flags)).filter
          (fun f => f.flag_image == u)) = some m →
        (cleanupDB db).flags.filter (fun f => f.flag_image == u) = [m] ∧
        m ∈ (cleanupPass2 (cleanupPass1 db.countries db.flags)).filter
          (fun f => f.flag_image == u) ∧
        (∀ f ∈ (cleanupPass2 (cleanupPass1 db.countries db.flags)).filter
            (fun f => f.flag_image == u),
          m.name.data.length ≤ f.name.data.length)) ∧
    (∀ db : DB,
        (∀ f ∈ db.flags, db.countries.any
          (fun c => c.flag_png != "" && c.flag_png == f.flag_image) = false) →
        (∀ f ∈ db.flags, isNoise f = false) →
        db.flags.Pairwise (fun f g => f.flag_image ≠ g.flag_image) →
        cleanupDB db = db) := by
  have hL : ∀ db : DB, IdsDistinct db.flags →
      IdsDistinct (cleanupPass2 (cleanupPass1 db.countries db.flags)) := by
    intro db hid
    exact List.Pairwise.sublist
      ((List.filter_sublist _).trans (List.filter_sublist _)) hid
  refine ⟨?_, ?_, ?_, ?_⟩
  · intro db hid
    exact pass3_images_distinct _ (hL db hid)
  · intro db hid
    have himg := pass3_images_distinct _ (hL db hid)
    have h1 : cleanupPass1 (cleanupDB db).countries (cleanupDB db).flags
        = (cleanupDB db).flags := by
      apply List.filter_eq_self.mpr
      intro f hf
      have hfL := (mem_pass3 _ f hf).1
      exact (List.mem_filter.mp (List.mem_filter.mp hfL).1).2
    have h2 : cleanupPass2 (cleanupDB db).flags = (cleanupDB db).flags := by
      apply List.filter_eq_self.mpr
      intro f hf
      have hfL := (mem_pass3 _ f hf).1
      exact (List.mem_filter.mp hfL).2
    have h3 : cleanupPass3 (cleanupDB db).flags = (cleanupDB db).flags :=
      pass3_eq_self _ himg
    show ({ cleanupDB db with flags := cleanupPass3 (cleanupPass2 (cleanupPass1
        (cleanupDB db).countries (cleanupDB db).flags)) } : DB) = cleanupDB db
    rw [h1, h2, h3]
  · intro db u m hid hch
    refine ⟨pass3_filter_group _ u m (hL db hid) hch, (chooseKept_spec _ m hch).1, ?_⟩
    intro f hf
    have h5 := (chooseKept_spec _ m hch).2 f hf
    by_contra hcon
    push_neg at hcon
    have : flagPrefOrder f m = true := by
      rw [flagPrefOrder_iff]
      exact Or.inl hcon
    rw [this] at h5
    exact absurd h5 (by decide)
  · intro db hp1 hp2 himg
    have h1 : cleanupPass1 db.countries db.flags = db.flags := by
      apply List.filter_eq_self.mpr
      intro f hf
      rw [hp1 f hf]
      rfl
    have h2 : cleanupPass2 db.flags = db.flags := by
      apply List.filter_eq_self.mpr
      intro f hf
      rw [hp2 f hf]
      rfl
    have h3 : cleanupPass3 db.flags = db.flags := pass3_eq_self _ himg
    show ({ db with flags := cleanupPass3 (cleanupPass2 (cleanupPass1
        db.countries db.flags)) } : DB) = db
    rw [h1, h2, h3]


/-- Witness for cleanup_collapses_duplicate_images on a concrete store
with two rows sharing one image. -/
theorem cleanup_collapses_duplicate_images_witness :
    (cleanupDB ⟨[], [⟨0, "X", "historical", "", "http://i/d.png", "", none⟩,
        ⟨1, "Republic of X", "historical", "", "http://i/d.png", "", none⟩], 2⟩).flags.filter
      (fun f => f.flag_image == "http://i/d.png")
        = [⟨0, "X", "historical", "", "http://i/d.png", "", none⟩] ∧
    cleanupDB (cleanupDB ⟨[], [⟨0, "X", "historical", "", "http://i/d.png", "", none⟩,
        ⟨1, "Republic of X", "historical", "", "http://i/d.png", "", none⟩], 2⟩)
      = cleanupDB ⟨[], [⟨0, "X", "historical", "", "http://i/d.png", "", none⟩,
        ⟨1, "Republic of X", "historical", "", "http://i/d.png", "", none⟩], 2⟩ ∧
    (cleanupDB ⟨[], [⟨0, "X", "historical", "", "http://i/d.png", "", none⟩,
        ⟨1, "Republic of X", "historical", "", "http://i/d.png", "", none⟩], 2⟩).flags.Pairwise
      (fun f g => f.flag_image ≠ g.flag_image) ∧
    cleanupDB ⟨[], [⟨0, "Lone", "historical", "", "http://i/solo.png", "", none⟩], 1⟩
      = ⟨[], [⟨0, "Lone", "historical", "", "http://i/solo.png", "", none⟩], 1⟩ :=
  ⟨(cleanup_collapses_duplicate_images.2.2.1 _ "http://i/d.png"
      ⟨0, "X", "historical", "", "http://i/d.png", "", none⟩
      (by unfold IdsDistinct; decide) (by decide)).1,
   cleanup_collapses_duplicate_images.2.1 _ (by unfold IdsDistinct; decide),
   cleanup_collapses_duplicate_images.1 _ (by unfold IdsDistinct; decide),
   cleanup_collapses_duplicate_images.2.2.2 _ (by decide) (by decide)
     (by decide)⟩

/-- Membership in the persisted-identifier list. -/
theorem mem_widsOf (flags : List FlagRow) (x : String) :
    x ∈ widsOf flags ↔ (∃ f ∈ flags, f.wikidata_id = x) ∧ x ≠ "" := by
  unfold widsOf
  simp only [List.mem_filter, List.mem_map]
  constructor
  · rintro ⟨⟨f, hf, rfl⟩, hne⟩
    exact ⟨⟨f, hf, rfl⟩, by simpa using hne⟩
  · rintro ⟨⟨f, hf, rfl⟩, hne⟩
    exact ⟨⟨f, hf, rfl⟩, by simpa using hne⟩

/-- Persisted identifiers after appending one row. -/
theorem widsOf_append (flags : List FlagRow) (f : FlagRow) :
    ∀ x, x ∈ widsOf (flags ++ [f]) ↔ x ∈ widsOf flags ∨ (x = f.wikidata_id ∧ x ≠ "") := by
  intro x
  rw [mem_widsOf, mem_widsOf]
  constructor
  · rintro ⟨⟨g, hg, rfl⟩, hne⟩
    rcases List.mem_append.mp hg with h | h
    · exact Or.inl ⟨⟨g, h, rfl⟩, hne⟩
    · have hgf := List.mem_singleton.mp h
      subst hgf
      exact Or.inr ⟨rfl, hne⟩
  · rintro (⟨⟨g, hg, rfl⟩, hne⟩ | ⟨rfl, hne⟩)
    · exact ⟨⟨g, List.mem_append.mpr (Or.inl hg), rfl⟩, hne⟩
    · exact ⟨⟨f, List.mem_append.mpr (Or.inr (List.mem_singleton.mpr rfl)), rfl⟩, hne⟩

/-- The in-place flag update changes no wikidata_id. -/
theorem widsOf_replaceE (w n c i : String) :
    ∀ l : List FlagRow,
      widsOf (replaceFirstFlag (fun f => f.wikidata_id == w)
        (fun f => { f with name := takeStr 200 n, category := c, flag_image := i }) l)
        = widsOf l := by
  intro l
  induction l with
  | nil => rfl
  | cons a as ih =>
      by_cases ha : a.wikidata_id == w
      · rw [replaceFirstFlag, if_pos ha]
        rfl
      · rw [replaceFirstFlag, if_neg ha]
        unfold widsOf at ih ⊢
        simp only [List.map_cons]
        by_cases he : a.wikidata_id = ""
        · rw [List.filter_cons_of_neg (by simp [he]),
              List.filter_cons_of_neg (by simp [he])]
          exact ih
        · rw [List.filter_cons_of_pos (by simp [he]),
              List.filter_cons_of_pos (by simp [he])]
          rw [ih]

/-- A positive wikidata_id scan yields a persisted identifier. -/
theorem any_wid_mem (l : List FlagRow) (w : String)
    (h : l.any (fun f => f.wikidata_id == w) = true) (hw : w ≠ "") : w ∈ widsOf l := by
  rw [List.any_eq_true] at h
  obtain ⟨f, hf, hbeq⟩ := h
  exact (mem_widsOf l w).mpr ⟨⟨f, hf, by simpa using hbeq⟩, hw⟩

/-- save_flag keeps every persisted identifier inside the seen set. -/
theorem saveFlagExtra_inv (d : DB) (s : Seen) (n u c w : String)
    (h : ∀ x ∈ widsOf d.flags, x ∈ s) :
    ∀ x ∈ widsOf (saveFlagExtra d s n u c w).1.flags,
      x ∈ (saveFlagExtra d s n u c w).2.1 := by
  unfold saveFlagExtra
  by_cases h1 : n = "" ∨ u = ""
  · rw [if_pos h1]; exact h
  · rw [if_neg h1]
    by_cases h2 : qidLabel n = true
    · rw [if_pos h2]; exact h
    · rw [if_neg h2]
      by_cases h3 : (if w ≠ "" then w else n) ∈ s
      case pos => rw [if_pos h3]; exact h
      case neg =>
      rw [if_neg h3]
      by_cases h4 : d.countries.any (fun c => lowerStr c.name_common == lowerStr n) = true
      · rw [if_pos h4]
        intro x hx
        exact List.mem_cons_of_mem _ (h x hx)
      · rw [if_neg h4]
        by_cases h5 : w ≠ ""
        · rw [if_pos h5]
          show ∀ x ∈ widsOf (flagUpdateOrCreateE d w n c (imageUrlOf u)).1.flags, _
          unfold flagUpdateOrCreateE
          by_cases h6 : d.flags.any (fun f => f.wikidata_id == w) = true
          · rw [if_pos h6]
            intro x hx
            rw [widsOf_replaceE w n c (imageUrlOf u) d.flags] at hx
            exact List.mem_cons_of_mem _ (h x hx)
          · rw [if_neg h6]
            intro x hx
            rcases (widsOf_append d.flags _ x).mp hx with hm | ⟨hm, _⟩
            · exact List.mem_cons_of_mem _ (h x hm)
            · rw [show ((⟨d.nextId, takeStr 200 n, c, "", imageUrlOf u, w, none⟩ :
                FlagRow)).wikidata_id = w from rfl] at hm
              rw [hm]
              show w ∈ (if w ≠ "" then w else n) :: s
              rw [if_pos h5]
              exact List.mem_cons_self _ _
        · rw [if_neg h5]
          show ∀ x ∈ widsOf (flagGetOrCreateE d n c (imageUrlOf u)).1.flags, _
          unfold flagGetOrCreateE
          by_cases h6 : d.flags.any
              (fun f => f.name == takeStr 200 n && f.category == c) = true
          · rw [if_pos h6]
            intro x hx
            exact List.mem_cons_of_mem _ (h x hx)
          · rw [if_neg h6]
            intro x hx
            rcases (widsOf_append d.flags _ x).mp hx with hm | ⟨hm, hne⟩
            · exact List.mem_cons_of_mem _ (h x hm)
            · exact absurd hm (by simpa using hne)

/-- Under a seen set covering the persisted identifiers, save_flag never
removes or modifies an existing row. -/
theorem saveFlagExtra_ext (d : DB) (s : Seen) (n u c w : String)
    (hinv : ∀ x ∈ widsOf d.flags, x ∈ s) :
    ∀ f ∈ d.flags, f ∈ (saveFlagExtra d s n u c w).1.flags := by
  unfold saveFlagExtra
  by_cases h1 : n = "" ∨ u = ""
  · rw [if_pos h1]; exact fun f hf => hf
  · rw [if_neg h1]
    by_cases h2 : qidLabel n = true
    · rw [if_pos h2]; exact fun f hf => hf
    · rw [if_neg h2]
      by_cases h3 : (if w ≠ "" then w else n) ∈ s
      case pos => rw [if_pos h3]; exact fun f hf => hf
      case neg =>
      rw [if_neg h3]
      by_cases h4 : d.countries.any (fun c => lowerStr c.name_common == lowerStr n) = true
      · rw [if_pos h4]; exact fun f hf => hf
      · rw [if_neg h4]
        by_cases h5 : w ≠ ""
        · rw [if_pos h5]
          show ∀ f ∈ d.flags, f ∈ (flagUpdateOrCreateE d w n c (imageUrlOf u)).1.flags
          unfold flagUpdateOrCreateE
          by_cases h6 : d.flags.any (fun f => f.wikidata_id == w) = true
          · exfalso
            rw [if_pos h5] at h3
            exact h3 (hinv w (any_wid_mem d.flags w h6 h5))
          · rw [if_neg h6]
            exact fun f hf => List.mem_append.mpr (Or.inl hf)
        · rw [if_neg h5]
          show ∀ f ∈ d.flags, f ∈ (flagGetOrCreateE d n c (imageUrlOf u)).1.flags
          unfold flagGetOrCreateE
          by_cases h6 : d.flags.any
              (fun f => f.name == takeStr 200 n && f.category == c) = true
          · rw [if_pos h6]; exact fun f hf => hf
          · rw [if_neg h6]
            exact fun f hf => List.mem_append.mpr (Or.inl hf)

/-- A save_flag fold never touches the Country table. -/
theorem foldExtra_countries (recs : List ExtraRec) :
    ∀ st : DB × Seen, (recs.foldl stepExtra st).1.countries = st.1.countries := by
  induction recs with
  | nil => intro st; rfl
  | cons r rest ih =>
      intro st
      rw [List.foldl_cons, ih]
      exact saveFlagExtra_countries st.1 st.2 _ _ _ _

/-- The seen-covers-identifiers invariant is preserved by the fold. -/
theorem foldExtra_inv (recs : List ExtraRec) :
    ∀ st : DB × Seen, (∀ x ∈ widsOf st.1.flags, x ∈ st.2) →
      ∀ x ∈ widsOf (recs.foldl stepExtra st).1.flags, x ∈ (recs.foldl stepExtra st).2 := by
  induction recs with
  | nil => intro st h; exact h
  | cons r rest ih =>
      intro st h
      rw [List.foldl_cons]
      exact ih (stepExtra st r) (saveFlagExtra_inv st.1 st.2 _ _ _ _ h)

/-- Rows persist unchanged through a seeded save_flag fold. -/
theorem foldExtra_ext (recs : List ExtraRec) :
    ∀ st : DB × Seen, (∀ x ∈ widsOf st.1.flags, x ∈ st.2) →
      ∀ f ∈ st.1.flags, f ∈ (recs.foldl stepExtra st).1.flags := by
  induction recs with
  | nil => intro st _ f hf; exact hf
  | cons r rest ih =>
      intro st h f hf
      rw [List.foldl_cons]
      exact ih (stepExtra st r) (saveFlagExtra_inv st.1 st.2 _ _ _ _ h) f
        (saveFlagExtra_ext st.1 st.2 _ _ _ _ h f hf)

/-- save_flag on an empty or QID-shaped record is a no-op. -/
theorem saveFlagExtra_skip_pre (d : DB) (s : Seen) (n u c w : String)
    (h : (n = "" ∨ u = "") ∨ qidLabel n = true) :
    saveFlagExtra d s n u c w = (d, s, false) := by
  unfold saveFlagExtra
  rcases h with h | h
  · rw [if_pos h]
  · by_cases h1 : n = "" ∨ u = ""
    · rw [if_pos h1]
    · rw [if_neg h1, if_pos h]

/-- save_flag discards a record whose dedup key is already seen. -/
theorem saveFlagExtra_skip_seen (d : DB) (s : Seen) (n u c w : String)
    (h1 : ¬(n = "" ∨ u = "")) (h2 : ¬qidLabel n = true)
    (h3 : (if w ≠ "" then w else n) ∈ s) :
    saveFlagExtra d s n u c w = (d, s, false) := by
  unfold saveFlagExtra
  rw [if_neg h1, if_neg h2, if_pos h3]

/-- save_flag discards a country-named record after marking its key. -/
theorem saveFlagExtra_reject_country (d : DB) (s : Seen) (n u c w : String)
    (h1 : ¬(n = "" ∨ u = "")) (h2 : ¬qidLabel n = true)
    (h3 : ¬(if w ≠ "" then w else n) ∈ s)
    (h4 : d.countries.any (fun cc => lowerStr cc.name_common == lowerStr n) = true) :
    saveFlagExtra d s n u c w = (d, (if w ≠ "" then w else n) :: s, false) := by
  unfold saveFlagExtra
  rw [if_neg h1, if_neg h2, if_neg h3, if_pos h4]

/-- Explicit form of save_flag on a record that reaches the upsert. -/
theorem saveFlagExtra_unfold_write (d : DB) (s : Seen) (n u c w : String)
    (h1 : ¬(n = "" ∨ u = "")) (h2 : ¬qidLabel n = true)
    (h3 : ¬(if w ≠ "" then w else n) ∈ s)
    (h4 : ¬d.countries.any (fun cc => lowerStr cc.name_common == lowerStr n) = true) :
    saveFlagExtra d s n u c w =
      if w ≠ "" then
        ((flagUpdateOrCreateE d w n c (imageUrlOf u)).1,
         (if w ≠ "" then w else n) :: s,
         (flagUpdateOrCreateE d w n c (imageUrlOf u)).2)
      else
        ((flagGetOrCreateE d n c (imageUrlOf u)).1,
         (if w ≠ "" then w else n) :: s,
         (flagGetOrCreateE d n c (imageUrlOf u)).2) := by
  unfold saveFlagExtra
  rw [if_neg h1, if_neg h2, if_neg h3, if_neg h4]

/-- Adding the same key to both runs preserves the seen-set relation. -/
theorem seen_iff_cons (k : String) (t s W : List String)
    (hiff : ∀ x, x ∈ t ↔ x ∈ W ∨ x ∈ s) :
    ∀ x, x ∈ k :: t ↔ x ∈ W ∨ x ∈ k :: s := by
  intro x
  constructor
  · intro hmem
    rcases List.mem_cons.mp hmem with h | h
    · exact Or.inr (h ▸ List.mem_cons_self k s)
    · rcases (hiff x).mp h with h' | h'
      · exact Or.inl h'
      · exact Or.inr (List.mem_cons_of_mem k h')
  · intro hmem
    rcases hmem with h' | h'
    · exact List.mem_cons_of_mem k ((hiff x).mpr (Or.inl h'))
    · rcases List.mem_cons.mp h' with h'' | h''
      · exact h'' ▸ List.mem_cons_self k t
      · exact List.mem_cons_of_mem k ((hiff x).mpr (Or.inr h''))

/-- A key already seen in the second run preserves the relation when the
first run adds it. -/
theorem seen_iff_already (k : String) (t s W : List String)
    (hiff : ∀ x, x ∈ t ↔ x ∈ W ∨ x ∈ s) (hk : k ∈ t) :
    ∀ x, x ∈ t ↔ x ∈ W ∨ x ∈ k :: s := by
  intro x
  constructor
  · intro hmem
    rcases (hiff x).mp hmem with h' | h'
    · exact Or.inl h'
    · exact Or.inr (List.mem_cons_of_mem k h')
  · intro hmem
    rcases hmem with h' | h'
    · exact (hiff x).mpr (Or.inl h')
    · rcases List.mem_cons.mp h' with h'' | h''
      · exact h'' ▸ hk
      · exact (hiff x).mpr (Or.inr h'')

/-- Simulation step: a save_flag call of a rerun, made against the final
store of a first run whose writes it contains and with a seen set holding
the final persisted identifiers plus the first run's seen keys, does not
change the store, and its seen set keeps the same shape. -/
theorem saveFlagExtra_sim (d dN : DB) (s t : Seen) (n u c w : String)
    (hinv : ∀ x ∈ widsOf d.flags, x ∈ s)
    (hctry : d.countries = dN.countries)
    (hext : ∀ f ∈ (saveFlagExtra d s n u c w).1.flags, f ∈ dN.flags)
    (hiff : ∀ x, x ∈ t ↔ x ∈ widsOf dN.flags ∨ x ∈ s) :
    (saveFlagExtra dN t n u c w).1 = dN ∧
      (∀ x, x ∈ (saveFlagExtra dN t n u c w).2.1 ↔
        x ∈ widsOf dN.flags ∨ x ∈ (saveFlagExtra d s n u c w).2.1) := by
  by_cases h1 : n = "" ∨ u = ""
  · rw [saveFlagExtra_skip_pre dN t n u c w (Or.inl h1),
        saveFlagExtra_skip_pre d s n u c w (Or.inl h1)]
    exact ⟨rfl, hiff⟩
  · by_cases h2 : qidLabel n = true
    · rw [saveFlagExtra_skip_pre dN t n u c w (Or.inr h2),
          saveFlagExtra_skip_pre d s n u c w (Or.inr h2)]
      exact ⟨rfl, hiff⟩
    · by_cases hk : (if w ≠ "" then w else n) ∈ t
      · rw [saveFlagExtra_skip_seen dN t n u c w h1 h2 hk]
        refine ⟨rfl, ?_⟩
        by_cases hks : (if w ≠ "" then w else n) ∈ s
        · rw [saveFlagExtra_skip_seen d s n u c w h1 h2 hks]
          exact hiff
        · by_cases h4 : d.countries.any
              (fun cc => lowerStr cc.name_common == lowerStr n) = true
          · rw [saveFlagExtra_reject_country d s n u c w h1 h2 hks h4]
            exact seen_iff_already _ t s _ hiff hk
          · rw [saveFlagExtra_unfold_write d s n u c w h1 h2 hks h4]
            by_cases h5 : w ≠ ""
            · rw [if_pos h5]
              exact seen_iff_already _ t s _ hiff hk
            · rw [if_neg h5]
              exact seen_iff_already _ t s _ hiff hk
      · have hknW : ¬(if w ≠ "" then w else n) ∈ widsOf dN.flags := by
          intro hc
          exact hk ((hiff _).mpr (Or.inl hc))
        have hkns : ¬(if w ≠ "" then w else n) ∈ s := by
          intro hc
          exact hk ((hiff _).mpr (Or.inr hc))
        by_cases h4 : d.countries.any
            (fun cc => lowerStr cc.name_common == lowerStr n) = true
        · have h4N : dN.countries.any
              (fun cc => lowerStr cc.name_common == lowerStr n) = true := by
            rw [← hctry]; exact h4
          rw [saveFlagExtra_reject_country dN t n u c w h1 h2 hk h4N,
              saveFlagExtra_reject_country d s n u c w h1 h2 hkns h4]
          exact ⟨rfl, seen_iff_cons _ t s _ hiff⟩
        · have h4N : ¬dN.countries.any
              (fun cc => lowerStr cc.name_common == lowerStr n) = true := by
            rw [← hctry]; exact h4
          rw [saveFlagExtra_unfold_write d s n u c w h1 h2 hkns h4] at hext ⊢
          rw [saveFlagExtra_unfold_write dN t n u c w h1 h2 hk h4N]
          by_cases h5 : w ≠ ""
          · exfalso
            rw [if_pos h5] at hext
            have hrow : (⟨d.nextId, takeStr 200 n, c, "", imageUrlOf u, w, none⟩ :
                FlagRow) ∈ (flagUpdateOrCreateE d w n c (imageUrlOf u)).1.flags := by
              unfold flagUpdateOrCreateE
              by_cases h6 : d.flags.any (fun f => f.wikidata_id == w) = true
              · exfalso
                rw [if_pos h5] at hkns
                exact hkns (hinv w (any_wid_mem d.flags w h6 h5))
              · rw [if_neg h6]
                exact List.mem_append.mpr (Or.inr (List.mem_singleton.mpr rfl))
            have hwW : w ∈ widsOf dN.flags :=
              (mem_widsOf dN.flags w).mpr ⟨⟨_, hext _ hrow, rfl⟩, h5⟩
            rw [if_pos h5] at hknW
            exact hknW hwW
          · simp only [if_neg h5] at hext ⊢
            have hexists : ∃ f ∈ (flagGetOrCreateE d n c (imageUrlOf u)).1.flags,
                f.name = takeStr 200 n ∧ f.category = c := by
              unfold flagGetOrCreateE
              by_cases h6 : d.flags.any
                  (fun f => f.name == takeStr 200 n && f.category == c) = true
              · rw [if_pos h6]
                rw [List.any_eq_true] at h6
                obtain ⟨f, hf, hb⟩ := h6
                rw [Bool.and_eq_true, beq_iff_eq, beq_iff_eq] at hb
                exact ⟨f, hf, hb⟩
              · rw [if_neg h6]
                exact ⟨_, List.mem_append.mpr (Or.inr (List.mem_singleton.mpr rfl)),
                       rfl, rfl⟩
            obtain ⟨f, hf, hfn, hfc⟩ := hexists
            have hfN : f ∈ dN.flags := hext f hf
            have hanyN : dN.flags.any
                (fun f => f.name == takeStr 200 n && f.category == c) = true := by
              rw [List.any_eq_true]
              refine ⟨f, hfN, ?_⟩
              rw [Bool.and_eq_true, beq_iff_eq, beq_iff_eq]
              exact ⟨hfn, hfc⟩
            constructor
            · show (flagGetOrCreateE dN n c (imageUrlOf u)).1 = dN
              unfold flagGetOrCreateE
              rw [if_pos hanyN]
            · exact seen_iff_cons _ t s _ hiff

/-- Simulation of a whole rerun: folding the same records over the final
store of a seeded first run, with the reseeded seen set, is a no-op on
the store. -/
theorem fold_sim :
    ∀ (recs : List ExtraRec) (d : DB) (s t : Seen),
      (∀ x ∈ widsOf d.flags, x ∈ s) →
      (∀ x, x ∈ t ↔ x ∈ widsOf (recs.foldl stepExtra (d, s)).1.flags ∨ x ∈ s) →
      (recs.foldl stepExtra ((recs.foldl stepExtra (d, s)).1, t)).1
          = (recs.foldl stepExtra (d, s)).1 ∧
        (∀ x, x ∈ (recs.foldl stepExtra ((recs.foldl stepExtra (d, s)).1, t)).2 ↔
          x ∈ widsOf (recs.foldl stepExtra (d, s)).1.flags ∨
            x ∈ (recs.foldl stepExtra (d, s)).2) := by
  intro recs
  induction recs with
  | nil =>
      intro d s t hinv hiff
      exact ⟨rfl, hiff⟩
  | cons r rest ih =>
      intro d s t hinv hiff
      simp only [List.foldl_cons] at hiff ⊢
      have hinv1 : ∀ x ∈ widsOf (stepExtra (d, s) r).1.flags, x ∈ (stepExtra (d, s) r).2 :=
        saveFlagExtra_inv d s _ _ _ _ hinv
      have hctry : d.countries = (rest.foldl stepExtra (stepExtra (d, s) r)).1.countries := by
        rw [foldExtra_countries rest (stepExtra (d, s) r)]
        exact (saveFlagExtra_countries d s _ _ _ _).symm
      have hext : ∀ f ∈ (saveFlagExtra d s (trimStr r.itemLabel) r.flag r.category
          (qidOf r.item)).1.flags,
          f ∈ (rest.foldl stepExtra (stepExtra (d, s) r)).1.flags := by
        intro f hf
        exact foldExtra_ext rest (stepExtra (d, s) r) hinv1 f hf
      have hsim := saveFlagExtra_sim d ((rest.foldl stepExtra (stepExtra (d, s) r)).1)
        s t (trimStr r.itemLabel) r.flag r.category (qidOf r.item) hinv hctry hext hiff
      have hstep2 : stepExtra ((rest.foldl stepExtra (stepExtra (d, s) r)).1, t) r
          = ((rest.foldl stepExtra (stepExtra (d, s) r)).1,
             (stepExtra ((rest.foldl stepExtra (stepExtra (d, s) r)).1, t) r).2) := by
        rw [show stepExtra ((rest.foldl stepExtra (stepExtra (d, s) r)).1, t) r
            = ((stepExtra ((rest.foldl stepExtra (stepExtra (d, s) r)).1, t) r).1,
               (stepExtra ((rest.foldl stepExtra (stepExtra (d, s) r)).1, t) r).2)
          from rfl]
        rw [show (stepExtra ((rest.foldl stepExtra (stepExtra (d, s) r)).1, t) r).1
            = (saveFlagExtra ((rest.foldl stepExtra (stepExtra (d, s) r)).1) t
                (trimStr r.itemLabel) r.flag r.category (qidOf r.item)).1 from rfl]
        rw [hsim.1]
      have hih := ih (stepExtra (d, s) r).1 (stepExtra (d, s) r).2
        (stepExtra ((rest.foldl stepExtra (stepExtra (d, s) r)).1, t) r).2 hinv1 hsim.2
      rw [hstep2]
      exact hih

/-- C1 (amended): re-running the populate_extra pipeline against
unchanged upstream data leaves every row count and field value unchanged
provided cleanup deleted nothing in the first run; without that proviso a
record whose external identifier matches a row that cleanup deleted is
seed-skipped in the first run but re-ingested in the second, so the runs
can differ (see the counterexample). -/
theorem extras_run_idempotent_when_cleanup_deletes_nothing (cats : List (String × List (Option (List SparqlRow)))) (db : DB)
    (hclean : cleanupDB (ingestExtra cats (db, extraSeed db)).1
      = (ingestExtra cats (db, extraSeed db)).1) :
    runExtra cats (runExtra cats db) = runExtra cats db := by
  unfold runExtra
  rw [hclean]
  simp only [ingestExtra_eq_flat] at hclean ⊢
  have hinv : ∀ x ∈ widsOf db.flags, x ∈ extraSeed db := fun x hx => hx
  have hiff : ∀ x, x ∈ extraSeed ((flatRecs cats).foldl stepExtra (db, extraSeed db)).1 ↔
      x ∈ widsOf ((flatRecs cats).foldl stepExtra (db, extraSeed db)).1.flags ∨
        x ∈ extraSeed db := by
    intro x
    constructor
    · intro hx
      exact Or.inl hx
    · intro hx
      rcases hx with hx | hx
      · exact hx
      · show x ∈ widsOf ((flatRecs cats).foldl stepExtra (db, extraSeed db)).1.flags
        rcases (mem_widsOf db.flags x).mp hx with ⟨⟨f, hf, hfx⟩, hne⟩
        exact (mem_widsOf _ x).mpr
          ⟨⟨f, foldExtra_ext (flatRecs cats) (db, extraSeed db) hinv f hf, hfx⟩, hne⟩
  have hfold := fold_sim (flatRecs cats) db (extraSeed db)
    (extraSeed ((flatRecs cats).foldl stepExtra (db, extraSeed db)).1) hinv hiff
  rw [hfold.1]
  exact hclean

/-- C1 counterexample: a store holding a noise-named row with external
identifier Q9, run against input carrying Q9 under a clean name, ends the
first run with zero FlagCollection rows (the input is seed-skipped and
cleanup deletes the noise row) but the second run with one row — the two
runs disagree on row count. -/
theorem extras_rerun_after_cleanup_recreates_row :
    (runExtra [("historical",
        [some [⟨"http://www.wikidata.org/entity/Q9", "Xland", "http://i/2.png"⟩]])]
      ⟨[], [⟨0, "X national football team", "historical", "", "http://i/1.png",
        "Q9", none⟩], 1⟩).flags.length = 0 ∧
    (runExtra [("historical",
        [some [⟨"http://www.wikidata.org/entity/Q9", "Xland", "http://i/2.png"⟩]])]
      (runExtra [("historical",
        [some [⟨"http://www.wikidata.org/entity/Q9", "Xland", "http://i/2.png"⟩]])]
        ⟨[], [⟨0, "X national football team", "historical", "", "http://i/1.png",
          "Q9", none⟩], 1⟩)).flags.length = 1 ∧
    (0 : Nat) ≠ 1 := by
  refine ⟨rfl, rfl, by decide⟩

/-- Witness for extras_run_idempotent_when_cleanup_deletes_nothing on a
concrete one-record run from an empty store. -/
theorem extras_run_idempotent_when_cleanup_deletes_nothing_witness :
    runExtra [("historical",
        [some [⟨"http://www.wikidata.org/entity/Q1", "Abc", "http://x/a.png"⟩]])]
      (runExtra [("historical",
        [some [⟨"http://www.wikidata.org/entity/Q1", "Abc", "http://x/a.png"⟩]])]
        ⟨[], [], 0⟩)
      = runExtra [("historical",
        [some [⟨"http://www.wikidata.org/entity/Q1", "Abc", "http://x/a.png"⟩]])]
        ⟨[], [], 0⟩ :=
  extras_run_idempotent_when_cleanup_deletes_nothing _ _ (by decide)
